import Mathlib

/-!
Shallow embedding of the core of the `metaai-api` repository
(`src/metaai_api/generation.py`, `main.py`, `api_server.py`, `client.py`)
and proofs about its media-resolution, decoding, auth-detection and job
orchestration logic.

Conventions of the embedding:
* JSON values are the inductive type `JVal`; Python numbers are rationals.
* Python's `json.loads` is an abstract parameter `pj : String → Option JVal`
  (`none` models a raised `JSONDecodeError`).
* Python truthiness is `JVal.truthy`; `dict.get` on a value that the source
  has guarded with an `isinstance` check is the total `JVal.get`/`JVal.getDef`;
  unguarded attribute access that can raise `AttributeError`/`TypeError` is
  the `Except Unit` returning `JVal.tryGet`/`JVal.tryGetDef`/`pyIterE`.
* Fallible Python code returns `Except`; a `.error` value models an exception
  propagating out of the modelled region.

The file is organised as definitions (translated from the source) first,
followed by all theorems.
-/

namespace MetaaiApi

/-- A JSON value, as produced by `json.loads` in the Python source. -/
inductive JVal where
  | jnull : JVal
  | jbool : Bool → JVal
  | jnum : ℚ → JVal
  | jstr : String → JVal
  | jarr : List JVal → JVal
  | jobj : List (String × JVal) → JVal
  deriving Repr

mutual

def JVal.decEq : (a b : JVal) → Decidable (a = b)
  | .jnull, .jnull => .isTrue rfl
  | .jbool a, .jbool b =>
    if h : a = b then .isTrue (by rw [h]) else .isFalse (by simp [h])
  | .jnum a, .jnum b =>
    if h : a = b then .isTrue (by rw [h]) else .isFalse (by simp [h])
  | .jstr a, .jstr b =>
    if h : a = b then .isTrue (by rw [h]) else .isFalse (by simp [h])
  | .jarr xs, .jarr ys =>
    match JVal.decEqList xs ys with
    | .isTrue h => .isTrue (by rw [h])
    | .isFalse h => .isFalse (by simp [h])
  | .jobj xs, .jobj ys =>
    match JVal.decEqObj xs ys with
    | .isTrue h => .isTrue (by rw [h])
    | .isFalse h => .isFalse (by simp [h])
  | .jnull, .jbool _ => .isFalse (by simp)
  | .jnull, .jnum _ => .isFalse (by simp)
  | .jnull, .jstr _ => .isFalse (by simp)
  | .jnull, .jarr _ => .isFalse (by simp)
  | .jnull, .jobj _ => .isFalse (by simp)
  | .jbool _, .jnull => .isFalse (by simp)
  | .jbool _, .jnum _ => .isFalse (by simp)
  | .jbool _, .jstr _ => .isFalse (by simp)
  | .jbool _, .jarr _ => .isFalse (by simp)
  | .jbool _, .jobj _ => .isFalse (by simp)
  | .jnum _, .jnull => .isFalse (by simp)
  | .jnum _, .jbool _ => .isFalse (by simp)
  | .jnum _, .jstr _ => .isFalse (by simp)
  | .jnum _, .jarr _ => .isFalse (by simp)
  | .jnum _, .jobj _ => .isFalse (by simp)
  | .jstr _, .jnull => .isFalse (by simp)
  | .jstr _, .jbool _ => .isFalse (by simp)
  | .jstr _, .jnum _ => .isFalse (by simp)
  | .jstr _, .jarr _ => .isFalse (by simp)
  | .jstr _, .jobj _ => .isFalse (by simp)
  | .jarr _, .jnull => .isFalse (by simp)
  | .jarr _, .jbool _ => .isFalse (by simp)
  | .jarr _, .jnum _ => .isFalse (by simp)
  | .jarr _, .jstr _ => .isFalse (by simp)
  | .jarr _, .jobj _ => .isFalse (by simp)
  | .jobj _, .jnull => .isFalse (by simp)
  | .jobj _, .jbool _ => .isFalse (by simp)
  | .jobj _, .jnum _ => .isFalse (by simp)
  | .jobj _, .jstr _ => .isFalse (by simp)
  | .jobj _, .jarr _ => .isFalse (by simp)

def JVal.decEqList : (a b : List JVal) → Decidable (a = b)
  | [], [] => .isTrue rfl
  | [], _ :: _ => .isFalse (by simp)
  | _ :: _, [] => .isFalse (by simp)
  | x :: xs, y :: ys =>
    match JVal.decEq x y, JVal.decEqList xs ys with
    | .isTrue h1, .isTrue h2 => .isTrue (by rw [h1, h2])
    | .isFalse h1, _ => .isFalse (by simp [h1])
    | _, .isFalse h2 => .isFalse (by simp [h2])

def JVal.decEqObj : (a b : List (String × JVal)) → Decidable (a = b)
  | [], [] => .isTrue rfl
  | [], _ :: _ => .isFalse (by simp)
  | _ :: _, [] => .isFalse (by simp)
  | (k1, v1) :: xs, (k2, v2) :: ys =>
    if hk : k1 = k2 then
      match JVal.decEq v1 v2, JVal.decEqObj xs ys with
      | .isTrue h1, .isTrue h2 => .isTrue (by rw [hk, h1, h2])
      | .isFalse h1, _ => .isFalse (by simp [h1])
      | _, .isFalse h2 => .isFalse (by simp [h2])
    else .isFalse (by simp [hk])

end

instance : DecidableEq JVal := JVal.decEq

namespace JVal

/-- Python truthiness of a JSON value (`if x:`). -/
def truthy : JVal → Bool
  | jnull => false
  | jbool b => b
  | jnum n => n != 0
  | jstr s => s != ""
  | jarr xs => !xs.isEmpty
  | jobj fs => !fs.isEmpty

/-- `d.get(k)` on a value the source has established to be a dict: the value
bound to `k`, or Python `None` (`jnull`) when the key is absent. -/
def get : JVal → String → JVal
  | jobj fs, k => ((fs.find? (fun p => p.1 = k)).map Prod.snd).getD jnull
  | _, _ => jnull

/-- `d.get(k, default)` on a value the source has established to be a dict. -/
def getDef : JVal → String → JVal → JVal
  | jobj fs, k, dflt => ((fs.find? (fun p => p.1 = k)).map Prod.snd).getD dflt
  | _, _, dflt => dflt

/-- `d.get(k)` on an arbitrary value: raises `AttributeError` when the
receiver is not a dict. -/
def tryGet : JVal → String → Except Unit JVal
  | jobj fs, k => .ok (((fs.find? (fun p => p.1 = k)).map Prod.snd).getD jnull)
  | _, _ => .error ()

/-- `d.get(k, default)` on an arbitrary value. -/
def tryGetDef : JVal → String → JVal → Except Unit JVal
  | jobj fs, k, dflt => .ok (((fs.find? (fun p => p.1 = k)).map Prod.snd).getD dflt)
  | _, _, _ => .error ()

/-- `k in d` on a dict. -/
def hasKey : JVal → String → Bool
  | jobj fs, k => fs.any (fun p => p.1 = k)
  | _, _ => false

/-- Python `a or b` on JSON values. -/
def pyOr (a b : JVal) : JVal := if a.truthy then a else b

/-- `isinstance(v, dict)`. -/
def isDict : JVal → Bool
  | jobj _ => true
  | _ => false

/-- `isinstance(v, list)`. -/
def isList : JVal → Bool
  | jarr _ => true
  | _ => false

/-- The elements of a JSON array (empty for non-arrays); models iterating
over a value that the code has checked to be a list. -/
def items : JVal → List JVal
  | jarr xs => xs
  | _ => []

/-- Python `for x in v` on an arbitrary value: lists yield their elements,
strings their characters, dicts their keys; other values raise `TypeError`. -/
def pyIterE : JVal → Except Unit (List JVal)
  | jarr xs => .ok xs
  | jstr s => .ok (s.data.map (fun c => jstr (String.mk [c])))
  | jobj fs => .ok (fs.map (fun p => jstr p.1))
  | _ => .error ()

end JVal

/-! ## Order-preserving deduplication

Both URL extractors end with
`seen = set(); unique_urls = []` and a loop appending each `u` with
`u not in seen` — first-occurrence-preserving deduplication. -/

/-- The `seen`-set deduplication loop, with the `seen` set represented by the
list accumulated so far. -/
def dedupFirstAux {α : Type} [DecidableEq α] : List α → List α → List α
  | acc, [] => acc
  | acc, u :: us => if u ∈ acc then dedupFirstAux acc us else dedupFirstAux (acc ++ [u]) us

/-- `Deduplicate while preserving order` as written at the end of
`extract_media_urls` and `extract_video_urls_from_fetch_response`. -/
def dedupFirst {α : Type} [DecidableEq α] (l : List α) : List α :=
  dedupFirstAux [] l

/-! ## String helpers (Python `in`, `lower`, `upper`, `strip`) -/

/-- `isPrefixOfChars needle hay`: `needle` is a prefix of `hay`. -/
def isPrefixOfChars : List Char → List Char → Bool
  | [], _ => true
  | _ :: _, [] => false
  | a :: as, b :: bs => a = b && isPrefixOfChars as bs

/-- Substring search on character lists. -/
def containsSub (hay needle : List Char) : Bool :=
  match hay with
  | [] => needle.isEmpty
  | _ :: tl => isPrefixOfChars needle hay || containsSub tl needle

/-- Python `needle in hay` on strings. -/
def pyInStr (needle hay : String) : Bool := containsSub hay.data needle.data

/-- Python `s.lower()`. -/
def pyLower (s : String) : String := String.mk (s.data.map Char.toLower)

/-- Python `s.upper()`. -/
def pyUpper (s : String) : String := String.mk (s.data.map Char.toUpper)

/-! ## Backoff schedule (claim C3)

`generation.py` line 997:
`delay = min(wait_seconds * (1 if attempt <= 3 else 1.5 if attempt <= 8 else 2), 5)`
for the image polling loop, and line 858: a constant `wait_seconds` sleep
for the video polling loop. -/

/-- The attempt-dependent factor in the image polling delay
(`1 if attempt <= 3 else 1.5 if attempt <= 8 else 2`). -/
def imageBackoffFactor (attempt : ℕ) : ℚ :=
  if attempt ≤ 3 then 1 else if attempt ≤ 8 then 3/2 else 2

/-- Inter-attempt delay of `fetch_image_urls_by_media_id`:
`min(wait_seconds * factor(attempt), 5)`. -/
def imagePollDelay (wait_seconds : ℚ) (attempt : ℕ) : ℚ :=
  min (wait_seconds * imageBackoffFactor attempt) 5

/-- Inter-attempt delay of `fetch_video_urls_by_media_id`: the constant
`wait_seconds` (`time.sleep(wait_seconds)`). -/
def videoPollDelay (wait_seconds : ℚ) (_attempt : ℕ) : ℚ := wait_seconds

/-! ## Auth-failure detection (claim C2)

`GenerationAPI._check_response_for_auth_error` (generation.py lines 57-97) and
`MetaAI._check_response_for_auth_error` (main.py lines 256-290) share the same
logic: return `True` on status 403, otherwise lowercase the body and look for
each indicator of a fixed list as a substring. -/

/-- The `error_indicators` list of `_check_response_for_auth_error`,
exactly as written in the source (note the capitalised first entry). -/
def authErrorIndicators : List String :=
  ["Access token required", "authentication", "unauthorized",
   "invalid session", "session expired"]

/-- An HTTP response as far as the auth check inspects it. -/
structure HttpResponse where
  status : Nat
  text : String

/-- `_check_response_for_auth_error`: `True` on 403, else scan the lowercased
body for the indicators. -/
def check_response_for_auth_error (r : HttpResponse) : Bool :=
  if r.status = 403 then true
  else if r.text ≠ "" then
    authErrorIndicators.any (fun ind => pyInStr ind (pyLower r.text))
  else false

/-! ## Credential refresh (claim C8)

`TokenCache.refresh_if_needed` (api_server.py lines 70-86): an outer and an
inner (post-lock) throttle check against `REFRESH_SECONDS`, then a `MetaAI`
construction whose cookie dict replaces the cache on success; on exception the
cache is left untouched and the exception is re-raised only when `force`. -/

structure TokenCacheState where
  cookies : List (String × String)
  lastRefresh : ℚ
  deriving Repr, DecidableEq

/-- Outcome of the `MetaAI(cookies=dict(self._cookies))` construction inside
`refresh_if_needed`: the new client's cookie dict, or a raised exception. -/
inductive RefreshOutcome where
  | ok : List (String × String) → RefreshOutcome
  | exn : RefreshOutcome
  deriving Repr, DecidableEq

/-- `TokenCache.refresh_if_needed`. `t1`, `t2`, `t3` are the successive
`time.time()` readings; the result is the cache state after the call paired
with whether an exception propagated to the caller. -/
def refresh_if_needed (refreshSeconds : ℚ) (st : TokenCacheState) (force : Bool)
    (t1 t2 t3 : ℚ) (outcome : RefreshOutcome) : TokenCacheState × Bool :=
  if ¬force ∧ t1 - st.lastRefresh < refreshSeconds then (st, false)
  else if ¬force ∧ t2 - st.lastRefresh < refreshSeconds then (st, false)
  else match outcome with
    | .ok newCookies => (⟨newCookies, t3⟩, false)
    | .exn => (st, force)

/-! ## Job orchestrator (claim C4)

`api_server.py`: `JobStore` (lines 197-231), `_run_video_job` (491-532) and
`video_job_status` (408-414). -/

/-- The dict `generate_video_new` returns (main.py lines 1073-1085):
`success`, `video_urls` and, on the failure path, `error`. -/
structure GenResult where
  success : Bool
  video_urls : List String
  error : Option String
  deriving Repr, DecidableEq

inductive JobState where
  | pending
  | running
  | succeeded
  | failed
  deriving Repr, DecidableEq

/-- A `JobStatus` record. -/
structure Job where
  jobId : String
  status : JobState
  createdAt : ℚ
  updatedAt : ℚ
  result : Option GenResult
  error : Option String
  deriving Repr, DecidableEq

/-- The job table, keyed by job id. -/
def JobTable : Type := List (String × Job)

/-- Lookup in the job table (`job_id in self._jobs` / `self._jobs[job_id]`). -/
def jobsFind : JobTable → String → Option Job
  | [], _ => none
  | (k, v) :: tl, id => if k = id then some v else jobsFind tl id

/-- `JobStore._update`: `none` models the `KeyError` on an unknown id. -/
def jobsUpdate (store : JobTable) (id : String) (now : ℚ) (f : Job → Job) :
    Option JobTable :=
  match jobsFind store id with
  | none => none
  | some _ =>
    some (store.map (fun p =>
      if p.1 = id then (p.1, { f p.2 with updatedAt := now }) else p))

/-- `JobStore.set_result`: status `succeeded`, the result stored, error cleared. -/
def jobsSetResult (store : JobTable) (id : String) (now : ℚ) (r : GenResult) :
    Option JobTable :=
  jobsUpdate store id now
    (fun j => { j with status := .succeeded, result := some r, error := none })

/-- `JobStore.set_error`: status `failed` with the error message. -/
def jobsSetError (store : JobTable) (id : String) (now : ℚ) (msg : String) :
    Option JobTable :=
  jobsUpdate store id now (fun j => { j with status := .failed, error := some msg })

/-- Outcome of the `generate_video_new` call inside `_run_video_job`:
either its returned dict or a raised exception's message. -/
inductive VideoJobOutcome where
  | returned : GenResult → VideoJobOutcome
  | raised : String → VideoJobOutcome
  deriving Repr, DecidableEq

/-- The error message `_run_video_job` records for a `success:true` result
with no video URLs (api_server.py line 525). -/
def noUrlsErrorMsg : String :=
  "Video generation completed but no video URLs were found. The video may still be processing or the extraction failed."

/-- The terminal update `_run_video_job` applies to the job table:
`succeeded` exactly when `result.get('success', False) and video_urls`,
otherwise `failed` with the corresponding error message. -/
def runVideoJobFinish (store : JobTable) (id : String) (now : ℚ)
    (o : VideoJobOutcome) : Option JobTable :=
  match o with
  | .returned r =>
    if r.success ∧ r.video_urls ≠ [] then jobsSetResult store id now r
    else if ¬r.success then
      jobsSetError store id now (r.error.getD "Video generation failed")
    else jobsSetError store id now noUrlsErrorMsg
  | .raised msg => jobsSetError store id now msg

/-- `GET /video/jobs/{job_id}`: the job record, or HTTP 404 on a `KeyError`. -/
def video_job_status (store : JobTable) (id : String) : Except Nat Job :=
  match jobsFind store id with
  | some j => .ok j
  | none => .error 404

/-! ## Credential loading (claim C9)

`TokenCache.load_seed` (api_server.py lines 52-68) and the cookie-sourcing
branch of `MetaAI.__init__` (main.py lines 75-89) with
`MetaAI._load_cookies_from_env` (main.py lines 103-163). -/

/-- The recognised `META_AI_*` environment variables (`none` = unset). -/
structure MetaEnv where
  datr : Option String
  abra_sess : Option String
  ecto_1_sess : Option String
  dpr : Option String
  wd : Option String
  js_datr : Option String
  abra_csrf : Option String
  rd_challenge : Option String
  ps_l : Option String
  ps_n : Option String
  deriving Repr, DecidableEq

/-- Python truthiness of an `os.getenv` result. -/
def optTruthy (o : Option String) : Bool :=
  match o with
  | some s => s ≠ ""
  | none => false

/-- The `seed` dict of `load_seed`, built with `os.getenv(..., "")`. -/
def seedPairs (env : MetaEnv) : List (String × String) :=
  [("datr", env.datr.getD ""), ("abra_sess", env.abra_sess.getD ""),
   ("ecto_1_sess", env.ecto_1_sess.getD ""), ("dpr", env.dpr.getD ""),
   ("wd", env.wd.getD ""), ("_js_datr", env.js_datr.getD ""),
   ("abra_csrf", env.abra_csrf.getD ""), ("rd_challenge", env.rd_challenge.getD "")]

/-- `seed.get(k)` (keys of `seedPairs` are distinct, so `find?` is `get`). -/
def seedGet (seed : List (String × String)) (k : String) : String :=
  ((seed.find? (fun p => p.1 = k)).map Prod.snd).getD ""

/-- `TokenCache.load_seed`: raise `RuntimeError` when `datr` or `abra_sess`
is empty, else store the non-empty cookies. The function performs no
network call (its body only reads the environment). -/
def load_seed (env : MetaEnv) : Except String (List (String × String)) :=
  let seed := seedPairs env
  let missing := ["datr", "abra_sess"].filter (fun k => seedGet seed k = "")
  if missing.isEmpty then .ok (seed.filter (fun p => p.2 ≠ ""))
  else .error ("Missing required seed cookies: " ++ String.intercalate ", " missing)

/-- `MetaAI._load_cookies_from_env`: `None` unless both `datr` and
`abra_sess` are truthy; otherwise the cookie dict with the optional
cookies appended when truthy. -/
def load_cookies_from_env (env : MetaEnv) : Option (List (String × String)) :=
  if optTruthy env.datr ∧ optTruthy env.abra_sess then
    some ([("datr", env.datr.getD ""), ("abra_sess", env.abra_sess.getD "")] ++
      (if optTruthy env.ecto_1_sess then [("ecto_1_sess", env.ecto_1_sess.getD "")] else []) ++
      (if optTruthy env.dpr then [("dpr", env.dpr.getD "")] else []) ++
      (if optTruthy env.wd then [("wd", env.wd.getD "")] else []) ++
      (if optTruthy env.js_datr then [("_js_datr", env.js_datr.getD "")] else []) ++
      (if optTruthy env.abra_csrf then [("abra_csrf", env.abra_csrf.getD "")] else []) ++
      (if optTruthy env.rd_challenge then [("rd_challenge", env.rd_challenge.getD "")] else []) ++
      (if optTruthy env.ps_l then [("ps_l", env.ps_l.getD "")] else []) ++
      (if optTruthy env.ps_n then [("ps_n", env.ps_n.getD "")] else []))
  else none

/-- How `MetaAI.__init__` obtains its cookie dict: environment first, then
the explicit `cookies` argument, else `self.get_cookies()` — a landing-page
fetch over the network (main.py lines 880-883). -/
inductive CookieSource where
  | fromEnv : List (String × String) → CookieSource
  | fromExplicit : List (String × String) → CookieSource
  | pageFetch : CookieSource
  deriving Repr, DecidableEq

/-- The cookie-sourcing branch of `MetaAI.__init__` (main.py lines 75-89). -/
def metaai_cookie_source (env : MetaEnv)
    (explicit : Option (List (String × String))) : CookieSource :=
  match load_cookies_from_env env with
  | some c => .fromEnv c
  | none =>
    match explicit with
    | some c => .fromExplicit c
    | none => .pageFetch

/-- The environment with every `META_AI_*` variable unset. -/
def emptyMetaEnv : MetaEnv :=
  ⟨none, none, none, none, none, none, none, none, none, none⟩

/-! ## Protocol request builder (claim C6)

`GenerationAPI._build_base_variables` (generation.py lines 110-181),
`_normalize_orientation` (lines 99-108) and the orientation assignment of
`generate_image` (line 213). -/

/-- Python `s.strip()`: drop whitespace from both ends. -/
def pyStrip (s : String) : String :=
  String.mk (((s.data.dropWhile Char.isWhitespace).reverse.dropWhile
    Char.isWhitespace).reverse)

/-- `_normalize_orientation`: `VERTICAL` for a falsy input, else uppercase,
strip, and map the legacy `HORIZONTAL` to `LANDSCAPE`. -/
def normalize_orientation (orientation : Option String) : String :=
  match orientation with
  | none => "VERTICAL"
  | some s =>
    if s = "" then "VERTICAL"
    else
      let normalized := pyStrip (pyUpper s)
      if normalized = "HORIZONTAL" then "LANDSCAPE" else normalized

/-- The fresh identifiers `_build_base_variables` draws from `uuid.uuid4()`
and `_generate_unique_id()`, passed in as explicit inputs. -/
structure FreshIds where
  conversationId : String
  userMessageId : String
  assistantMessageId : String
  turnId : String
  promptSessionId : String
  uniqueMessageId : String
  deriving Repr, DecidableEq

/-- The `**kwargs` entries `_build_base_variables` consults
(`none` = key absent). -/
structure BuildKwargs where
  conversation_id : Option String
  prompt_session_id : Option String
  user_unique_message_id : Option String
  media_ids : Option (List String)
  is_new_conversation : Option Bool
  timezone : Option String
  device_pixel_ratio : Option ℚ
  user_agent : Option String
  locale : Option String
  deriving Repr, DecidableEq

/-- `_default_user_agent` (generation.py line 55). -/
def defaultUserAgent : String :=
  "Mozilla/5.0 (Windows NT 10.0; Win64; x64) AppleWebKit/537.36 (KHTML, like Gecko) Chrome/144.0.0.0 Safari/537.36 Edg/144.0.0.0"

/-- `_build_base_variables`: the GraphQL `variables` dict, fields in source
order. -/
def build_base_variables (prompt operation content_prefix : String)
    (ids : FreshIds) (kw : BuildKwargs) : JVal :=
  let conversation_id := match kw.conversation_id with
    | some s => if s ≠ "" then s else ids.conversationId
    | none => ids.conversationId
  let prompt_session_id := kw.prompt_session_id.getD ids.promptSessionId
  let content :=
    if content_prefix ≠ "" then pyStrip ( content_prefix ++ " " ++ prompt) else prompt
  let attachments_v2 := match kw.media_ids with
    | some l => if ¬l.isEmpty then l else []
    | none => []
  .jobj [
    ("conversationId", .jstr conversation_id),
    ("content", .jstr content),
    ("userMessageId", .jstr ids.userMessageId),
    ("assistantMessageId", .jstr ids.assistantMessageId),
    ("userUniqueMessageId", .jstr (kw.user_unique_message_id.getD ids.uniqueMessageId)),
    ("turnId", .jstr ids.turnId),
    ("spaceId", .jnull),
    ("mode", .jstr "create"),
    ("rewriteOptions", .jnull),
    ("attachments", .jnull),
    ("attachmentsV2", .jarr (attachments_v2.map .jstr)),
    ("mentions", .jnull),
    ("clippyIp", .jnull),
    ("isNewConversation", .jbool (kw.is_new_conversation.getD true)),
    ("imagineOperationRequest", .jobj [
      ("operation", .jstr operation),
      ("textToImageParams", .jobj [("prompt", .jstr prompt)])]),
    ("qplJoinId", .jnull),
    ("clientTimezone", .jstr (kw.timezone.getD "UTC")),
    ("developerOverridesForMessage", .jnull),
    ("clientLatitude", .jnull),
    ("clientLongitude", .jnull),
    ("devicePixelRatio", .jnum (kw.device_pixel_ratio.getD (5/4))),
    ("entryPoint", .jnull),
    ("promptSessionId", .jstr prompt_session_id),
    ("promptType", .jnull),
    ("conversationStarterId", .jnull),
    ("userAgent", .jstr (kw.user_agent.getD defaultUserAgent)),
    ("currentBranchPath", .jnull),
    ("promptEditType", .jstr "new_message"),
    ("userLocale", .jstr (kw.locale.getD "en-US")),
    ("userEventId", .jnull)]

/-- Python dict item assignment `d[k] = v`: replace the binding in place when
the key exists, else append it. -/
def JVal.setKey : JVal → String → JVal → JVal
  | .jobj fs, k, v =>
    if fs.any (fun p => p.1 = k) then
      .jobj (fs.map (fun p => if p.1 = k then (k, v) else p))
    else .jobj (fs ++ [(k, v)])
  | w, _, _ => w

/-- The variables `generate_image` sends: the base build for
`TEXT_TO_IMAGE` with an empty content prefix, then
`variables["imagineOperationRequest"]["textToImageParams"]["orientation"] =
self._normalize_orientation(orientation)`. -/
def generate_image_variables (prompt : String) (orientation : Option String)
    (ids : FreshIds) (kw : BuildKwargs) : JVal :=
  let vars := build_base_variables prompt "TEXT_TO_IMAGE" "" ids kw
  let ior := vars.get "imagineOperationRequest"
  let params := ior.get "textToImageParams"
  vars.setKey "imagineOperationRequest"
    (ior.setKey "textToImageParams"
      (params.setKey "orientation" (.jstr (normalize_orientation orientation))))

/-- `_build_base_variables` paired with its inputs after the call: the body
only reads `prompt` and `kwargs` (via `kwargs.get`), it contains no
assignment to either, so they come back unchanged. -/
def build_base_variables_full (prompt operation content_prefix : String)
    (ids : FreshIds) (kw : BuildKwargs) : JVal × String × BuildKwargs :=
  (build_base_variables prompt operation content_prefix ids kw, prompt, kw)

mutual

/-- Number of string leaves of a JSON value equal to `s`. -/
def strCount : JVal → String → ℕ
  | .jstr t, s => if t = s then 1 else 0
  | .jarr xs, s => strCountList xs s
  | .jobj fs, s => strCountObj fs s
  | _, _ => 0

def strCountList : List JVal → String → ℕ
  | [], _ => 0
  | x :: xs, s => strCount x s + strCountList xs s

def strCountObj : List (String × JVal) → String → ℕ
  | [], _ => 0
  | (_, v) :: fs, s => strCount v s + strCountObj fs s

end

/-! ## Media-URL extraction (claim C10)

`GenerationAPI.extract_media_urls` (generation.py lines 1132-1230) and
`extract_video_urls_from_fetch_response` (client.py lines 130-173).
Unguarded `.get`/iteration on arbitrary values can raise; inside the scan of
`extract_media_urls` a raised exception is caught by the enclosing
`try/except` and the URLs accumulated so far survive (the `urls` local is
declared outside the `try`), so scan steps return
`Except (List JVal) (List JVal)`: `.error acc` is an exception carrying the
URLs appended before it. -/

/-- `d[k]` subscription: `KeyError`/`TypeError` on a missing key or a
non-dict receiver. -/
def trySubscript : JVal → String → Except Unit JVal
  | .jobj fs, k =>
    match (fs.find? (fun p => p.1 = k)).map Prod.snd with
    | some v => .ok v
    | none => .error ()
  | _, _ => .error ()

/-- Python `needle in container` for a string needle: key lookup on dicts,
substring on strings, membership on lists, `TypeError` otherwise. -/
def pyInOp (needle : String) : JVal → Except Unit Bool
  | .jobj fs => .ok (fs.any (fun p => p.1 = needle))
  | .jstr s => .ok (pyInStr needle s)
  | .jarr xs => .ok (xs.any (fun x => x = .jstr needle))
  | _ => .error ()

/-- `d.keys()`: `AttributeError` on a non-dict. -/
def tryKeys : JVal → Except Unit (List String)
  | .jobj fs => .ok (fs.map Prod.fst)
  | _ => .error ()

/-- `v.get(k1) or v.get(k2)` with Python short-circuiting. -/
def tryGetOr (v : JVal) (k1 k2 : String) : Except Unit JVal :=
  match v.tryGet k1 with
  | .error e => .error e
  | .ok a => if a.truthy then .ok a else v.tryGet k2

/-- Run one fallible step inside the `try` of the scan: an exception becomes
`.error acc`, carrying the URLs accumulated so far. -/
def tryStep {α : Type} (acc : List JVal) :
    Except Unit α → (α → Except (List JVal) (List JVal)) →
    Except (List JVal) (List JVal)
  | .error _, _ => .error acc
  | .ok a, f => f a

/-- The `for p in prog` loop (generation.py lines 1215-1218 /
client.py lines 149-152): append each truthy `progressive_url`. -/
def scanProgUrls (acc : List JVal) : List JVal → Except (List JVal) (List JVal)
  | [] => .ok acc
  | p :: rest =>
    tryStep acc (p.tryGet "progressive_url") fun pu =>
      scanProgUrls (if pu.truthy then acc ++ [pu] else acc) rest

/-- The `for video in videos` loop (generation.py lines 1207-1218 /
client.py lines 143-152): append the truthy `video_url or uri`, then the
delivery-response progressive URLs. -/
def scanVideos (acc : List JVal) : List JVal → Except (List JVal) (List JVal)
  | [] => .ok acc
  | video :: rest =>
    tryStep acc (tryGetOr video "video_url" "uri") fun uri =>
      let acc1 := if uri.truthy then acc ++ [uri] else acc
      tryStep acc1 (video.tryGet "videoDeliveryResponseResult") fun dv =>
        let delivery := dv.pyOr (.jobj [])
        tryStep acc1 (delivery.tryGetDef "progressive_urls" (.jarr [])) fun prog =>
          tryStep acc1 prog.pyIterE fun progItems =>
            match scanProgUrls acc1 progItems with
            | .error e => .error e
            | .ok acc2 => scanVideos acc2 rest

/-- The `for img in images` loop (generation.py lines 1192-1195): append the
truthy `uri or url`. -/
def scanImages (acc : List JVal) : List JVal → Except (List JVal) (List JVal)
  | [] => .ok acc
  | img :: rest =>
    tryStep acc (tryGetOr img "uri" "url") fun url =>
      scanImages (if url.truthy then acc ++ [url] else acc) rest

/-- The `for edge in messages` loop of `extract_media_urls`
(generation.py lines 1185-1218): images, then videos (with the
`video`-singular fallback when `videos.nodes` is falsy). -/
def scanEdges (acc : List JVal) : List JVal → Except (List JVal) (List JVal)
  | [] => .ok acc
  | edge :: rest =>
    tryStep acc (edge.tryGetDef "node" (.jobj [])) fun node =>
    tryStep acc (node.tryGetDef "content" (.jobj [])) fun content =>
    tryStep acc (content.tryGet "imagine_media") fun im =>
    tryStep acc ((im.pyOr (.jobj [])).tryGetDef "images" (.jobj [])) fun imgsOuter =>
    tryStep acc (imgsOuter.tryGetDef "nodes" (.jarr [])) fun imgsVal =>
    tryStep acc imgsVal.pyIterE fun imgs =>
    match scanImages acc imgs with
    | .error e => .error e
    | .ok acc1 =>
      tryStep acc1 (content.tryGet "imagine_video") fun iv =>
        let imagine_video := iv.pyOr (.jobj [])
        tryStep acc1 (imagine_video.tryGetDef "videos" (.jobj [])) fun vidsOuter =>
        tryStep acc1 (vidsOuter.tryGetDef "nodes" (.jarr [])) fun vidsVal =>
        if ¬vidsVal.truthy then
          tryStep acc1 (imagine_video.tryGet "video") fun vs =>
            if vs.truthy then
              tryStep acc1 (JVal.jarr [vs]).pyIterE fun vids =>
                match scanVideos acc1 vids with
                | .error e => .error e
                | .ok acc2 => scanEdges acc2 rest
            else
              tryStep acc1 vidsVal.pyIterE fun vids =>
                match scanVideos acc1 vids with
                | .error e => .error e
                | .ok acc2 => scanEdges acc2 rest
        else
          tryStep acc1 vidsVal.pyIterE fun vids =>
            match scanVideos acc1 vids with
            | .error e => .error e
            | .ok acc2 => scanEdges acc2 rest

/-- `for edge in messages` then scan (the tail of the `try` block). -/
def extractStage4 (messages : JVal) : Except (List JVal) (List JVal) :=
  tryStep [] messages.pyIterE fun edges => scanEdges [] edges

/-- The fallback `for key in data.keys()` loop (generation.py lines
1176-1182): take the first truthy `data[key].messages.edges` under a key
containing "message". -/
def keysLoop (data m : JVal) : List String → Except (List JVal) (List JVal)
  | [] => extractStage4 m
  | key :: rest =>
    if pyInStr "message" (pyLower key) then
      tryStep [] (trySubscript data key) fun dk =>
      tryStep [] (dk.tryGetDef "messages" (.jobj [])) fun v2 =>
      tryStep [] (v2.tryGetDef "edges" (.jarr [])) fun msg_data =>
        if msg_data.truthy then extractStage4 msg_data
        else keysLoop data m rest
    else keysLoop data m rest

/-- `messages = data.get(key, {}).get('messages', {}).get('edges', [])`. -/
def selectViaKey (data : JVal) (key : String)
    (k : JVal → Except (List JVal) (List JVal)) :
    Except (List JVal) (List JVal) :=
  tryStep [] (data.tryGetDef key (.jobj [])) fun v1 =>
  tryStep [] (v1.tryGetDef "messages" (.jobj [])) fun v2 =>
  tryStep [] (v2.tryGetDef "edges" (.jarr [])) fun m => k m

/-- `if not messages: for key in data.keys(): ...` and the final scan. -/
def extractStage3 (data m : JVal) : Except (List JVal) (List JVal) :=
  if ¬m.truthy then
    tryStep [] (tryKeys data) fun keys => keysLoop data m keys
  else extractStage4 m

/-- `if not messages and 'xfb_genai_fetch_post' in data: ...`. -/
def extractStage2c (data m : JVal) : Except (List JVal) (List JVal) :=
  if ¬m.truthy then
    tryStep [] (pyInOp "xfb_genai_fetch_post" data) fun h =>
      if h then selectViaKey data "xfb_genai_fetch_post" (extractStage3 data)
      else extractStage3 data m
  else extractStage3 data m

/-- `if not messages and 'xfb_kadabra_send_message' in data: ...`. -/
def extractStage2b (data m : JVal) : Except (List JVal) (List JVal) :=
  if ¬m.truthy then
    tryStep [] (pyInOp "xfb_kadabra_send_message" data) fun h =>
      if h then selectViaKey data "xfb_kadabra_send_message" (extractStage2c data)
      else extractStage2c data m
  else extractStage2c data m

/-- The whole `try` block of `extract_media_urls` (lines 1159-1218). -/
def extractScan (data : JVal) : Except (List JVal) (List JVal) :=
  tryStep [] (pyInOp "xfb_imagine_send_message" data) fun h =>
    if h then selectViaKey data "xfb_imagine_send_message" (extractStage2b data)
    else extractStage2b data (.jarr [])

/-- The `for part in response_data['parts']` loop (lines 1149-1154):
the first part with a truthy `data`, or `none` for the `for`-`else`
early return. -/
def partsLoop : List JVal → Except Unit (Option JVal)
  | [] => .ok none
  | part :: rest =>
    match part.tryGet "data" with
    | .error _ => .error ()
    | .ok d =>
      if d.truthy then
        match trySubscript part "data" with
        | .error _ => .error ()
        | .ok v => .ok (some v)
      else partsLoop rest

/-- The `elif 'parts' in response_data` branch (lines 1147-1154). -/
def dataSelectionElif (response_data : JVal) : Except Unit (Option JVal) :=
  match pyInOp "parts" response_data with
  | .error _ => .error ()
  | .ok hasParts =>
    if hasParts then
      match trySubscript response_data "parts" with
      | .error _ => .error ()
      | .ok pv =>
        match pv.pyIterE with
        | .error _ => .error ()
        | .ok parts => partsLoop parts
    else .ok (some response_data)

/-- Lines 1145-1156: pick `data` from `response_data` — this part runs
before the `try`, so its exceptions propagate (`.error`). -/
def dataSelection (response_data : JVal) : Except Unit (Option JVal) :=
  match pyInOp "data" response_data with
  | .error _ => .error ()
  | .ok hasData =>
    if hasData then
      match trySubscript response_data "data" with
      | .error _ => .error ()
      | .ok d =>
        if d.isDict then .ok (some d) else dataSelectionElif response_data
    else dataSelectionElif response_data

/-- `GenerationAPI.extract_media_urls`: data selection, guarded scan, and
final order-preserving deduplication (applied to whatever was accumulated,
also when the scan raised and was caught). -/
def extract_media_urls (response_data : JVal) : Except Unit (List JVal) :=
  match dataSelection response_data with
  | .error _ => .error ()
  | .ok none => .ok []
  | .ok (some data) =>
    match extractScan data with
    | .ok urls => .ok (dedupFirst urls)
    | .error urls => .ok (dedupFirst urls)

/-- `extract_media_urls` without the final deduplication: the raw traversal
sequence of appended URLs. -/
def extract_media_urls_raw (response_data : JVal) : Except Unit (List JVal) :=
  match dataSelection response_data with
  | .error _ => .error ()
  | .ok none => .ok []
  | .ok (some data) =>
    match extractScan data with
    | .ok urls => .ok urls
    | .error urls => .ok urls

/-- The `for edge in messages` loop of
`extract_video_urls_from_fetch_response` (client.py lines 137-164): videos,
then the guarded `single_video` dict. -/
def clientScanEdges (acc : List JVal) : List JVal → Except (List JVal) (List JVal)
  | [] => .ok acc
  | edge :: rest =>
    tryStep acc (edge.tryGetDef "node" (.jobj [])) fun node =>
    tryStep acc (node.tryGetDef "content" (.jobj [])) fun content =>
    tryStep acc (content.tryGet "imagine_video") fun iv =>
      let imagine_video := iv.pyOr (.jobj [])
      tryStep acc (imagine_video.tryGetDef "videos" (.jobj [])) fun vo =>
      tryStep acc (vo.tryGetDef "nodes" (.jarr [])) fun vidsVal =>
      tryStep acc vidsVal.pyIterE fun vids =>
      match scanVideos acc vids with
      | .error e => .error e
      | .ok acc1 =>
        tryStep acc1 (imagine_video.tryGet "video") fun sv =>
          let single_video := sv.pyOr (.jobj [])
          if single_video.isDict then
            tryStep acc1 (tryGetOr single_video "video_url" "uri") fun uri =>
              let acc2 := if uri.truthy then acc1 ++ [uri] else acc1
              tryStep acc2 (single_video.tryGet "videoDeliveryResponseResult") fun dv =>
                let delivery := dv.pyOr (.jobj [])
                tryStep acc2 (delivery.tryGetDef "progressive_urls" (.jarr [])) fun prog =>
                tryStep acc2 prog.pyIterE fun progItems =>
                match scanProgUrls acc2 progItems with
                | .error e => .error e
                | .ok acc3 => clientScanEdges acc3 rest
          else clientScanEdges acc1 rest

/-- The `messages`/`edges` traversal of
`extract_video_urls_from_fetch_response` applied to the selected
`fetch_post` value (client.py lines 136-164). -/
def client_post_scan (fetch_post : JVal) : Except Unit (List JVal) :=
  match fetch_post.tryGetDef "messages" (.jobj []) with
  | .error _ => .error ()
  | .ok v2 =>
    match v2.tryGetDef "edges" (.jarr []) with
    | .error _ => .error ()
    | .ok m =>
      match m.pyIterE with
      | .error _ => .error ()
      | .ok edges =>
        match clientScanEdges [] edges with
        | .error _ => .error ()
        | .ok urls => .ok urls

/-- The body of `extract_video_urls_from_fetch_response` up to (not
including) the final deduplication; this function has no `try/except`, so an
exception propagates out (modelled by collapsing the partial accumulator). -/
def client_fetch_scan (fetch_response : JVal) : Except Unit (List JVal) :=
  match fetch_response.tryGetDef "data" (.jobj []) with
  | .error _ => .error ()
  | .ok data =>
    match data.tryGet "xfb_genai_fetch_post" with
    | .error _ => .error ()
    | .ok a =>
      if a.truthy then client_post_scan a
      else
        match data.tryGet "xab_abra__xfb_genai_fetch_post" with
        | .error _ => .error ()
        | .ok b => client_post_scan (b.pyOr (.jobj []))

/-- `extract_video_urls_from_fetch_response`: the scan followed by the
order-preserving deduplication. -/
def extract_video_urls_from_fetch_response (fetch_response : JVal) :
    Except Unit (List JVal) :=
  match client_fetch_scan fetch_response with
  | .error _ => .error ()
  | .ok urls => .ok (dedupFirst urls)

/-! ## Media-resolution polling loops (claims C1, C7)

`GenerationAPI.fetch_video_urls_by_media_id` (generation.py lines 758-866)
and `GenerationAPI.fetch_image_urls_by_media_id` (lines 868-1008).
`fetch_media_by_id` (lines 661-756) catches every exception and returns an
`{"error": ...}` dict, so the per-attempt data source is modelled as a total
function `fetch : ℕ → JVal` (attempt number to decoded response); a network
failure shows up as an `error` dict. The video scan is unguarded, so a
malformed feed raises inside the attempt's `try` — caught by its `except`,
leaving the `videos` local with whatever was appended before the raise; this
is the `.error` side of `videoCollect`. The image scan is fully
`isinstance`-guarded and total. The loops are written with an explicit
`fuel` argument maintaining `fuel = max_attempts + 1 - attempt`. -/

/-- One resolved media entry as appended by the polling loops (the dict of
generation.py lines 804-815 / 830-841 / 931-942 / 970-981). -/
structure MediaItem where
  id : String
  url : JVal
  thumbnail : JVal
  prompt : JVal
  width : JVal
  height : JVal
  orientation : JVal
  fallbackUrl : JVal
  downloadableFileName : JVal
  source_image_url : JVal
  deriving Repr, DecidableEq

/-- Build the appended dict from the source dict `m`, the chosen URL and the
`sourceMedia` URL. -/
def mkItem (s : String) (m url source_image_url : JVal) : MediaItem :=
  { id := s, url := url, thumbnail := m.get "thumbnail",
    prompt := m.get "prompt", width := m.get "width", height := m.get "height",
    orientation := m.get "orientation", fallbackUrl := m.get "fallbackUrl",
    downloadableFileName := m.get "downloadableFileName",
    source_image_url := source_image_url }

/-- A fallible step inside a polling attempt's `try`: an exception carries
the items appended before it. -/
def pollStep {α : Type} (acc : List MediaItem) (x : Except Unit α)
    (f : α → Except (List MediaItem) (List MediaItem)) :
    Except (List MediaItem) (List MediaItem) :=
  match x with
  | .error _ => .error acc
  | .ok a => f a

/-- The inner `for video in node_videos` loop of the video scan
(lines 824-842); returns the items and the `seen_ids` set (as a list). -/
def videoFeedVideos (ids : List String) :
    List JVal → List String → List MediaItem →
    Except (List MediaItem) (List MediaItem × List String)
  | [], seen, acc => .ok (acc, seen)
  | video :: rest, seen, acc =>
    match video.tryGet "id" with
    | .error _ => .error acc
    | .ok video_id =>
      match video.tryGet "url" with
      | .error _ => .error acc
      | .ok video_url =>
        match video_id with
        | .jstr s =>
          if s ∈ ids ∧ video_url.truthy = true ∧ s ∉ seen then
            match (video.getDef "sourceMedia" (.jobj [])).tryGet "url" with
            | .error _ => .error acc
            | .ok sm =>
              videoFeedVideos ids rest (seen ++ [s])
                (acc ++ [mkItem s video video_url sm])
          else videoFeedVideos ids rest seen acc
        | _ => videoFeedVideos ids rest seen acc

/-- The `for edge in edges` loop of the video scan (lines 820-842). -/
def videoFeedEdges (ids : List String) :
    List JVal → List String → List MediaItem →
    Except (List MediaItem) (List MediaItem)
  | [], _, acc => .ok acc
  | edge :: rest, seen, acc =>
    pollStep acc (edge.tryGetDef "node" (.jobj [])) fun node =>
    pollStep acc (node.tryGetDef "videos" (.jarr [])) fun nv =>
    pollStep acc nv.pyIterE fun nvs =>
      match videoFeedVideos ids nvs seen acc with
      | .error e => .error e
      | .ok (acc', seen') => videoFeedEdges ids rest seen' acc'

/-- The `mediaLibraryFeed` part of the video scan (lines 817-842), entered
with the items and seen-set from the `createRouteMedia` part. -/
def videoCollectFeed (ids : List String) (d1 : JVal) (seen0 : List String)
    (acc0 : List MediaItem) : Except (List MediaItem) (List MediaItem) :=
  pollStep acc0 (d1.tryGetDef "mediaLibraryFeed" (.jobj [])) fun media_feed =>
  pollStep acc0 (media_feed.tryGetDef "edges" (.jarr [])) fun edgesVal =>
  pollStep acc0 edgesVal.pyIterE fun edges =>
  videoFeedEdges ids edges seen0 acc0

/-- One attempt's scan of `fetch_video_urls_by_media_id`
(lines 797-842): `createRouteMedia` first, then the feed. -/
def videoCollect (ids : List String) (data : JVal) :
    Except (List MediaItem) (List MediaItem) :=
  pollStep [] (data.tryGetDef "data" (.jobj [])) fun d1 =>
  pollStep [] (d1.tryGetDef "createRouteMedia" (.jobj [])) fun crm =>
  if crm.truthy then
    pollStep [] (crm.tryGet "id") fun route_id =>
    pollStep [] (tryGetOr crm "url" "fallbackUrl") fun route_url =>
      match route_id with
      | .jstr s =>
        if s ∈ ids ∧ route_url.truthy = true ∧ s ∉ ([] : List String) then
          pollStep [] ((crm.getDef "sourceMedia" (.jobj [])).tryGet "url") fun sm =>
            videoCollectFeed ids d1 [s] [mkItem s crm route_url sm]
        else videoCollectFeed ids d1 [] []
      | _ => videoCollectFeed ids d1 [] []
  else videoCollectFeed ids d1 [] []

/-- The observable trace of one polling run. -/
structure PollRun where
  result : List MediaItem
  attemptsUsed : ℕ
  earlyExit : Bool
  queries : List String
  deriving Repr, DecidableEq

/-- What one polling attempt does to the loop state: `keep` leaves the
items local untouched (error dict, or an exception before its
reassignment); `replaceNoCheck` overwrites it without the completeness check
(a caught mid-scan exception keeping a partial list, or the image loop's
non-dict `data` field after `images = []`); `collected` is a completed scan,
subject to the all-ids-resolved early return. -/
inductive PollStepOutcome where
  | keep : PollStepOutcome
  | replaceNoCheck : List MediaItem → PollStepOutcome
  | collected : List MediaItem → PollStepOutcome
  deriving Repr, DecidableEq

/-- The shared attempt loop of `fetch_video_urls_by_media_id` /
`fetch_image_urls_by_media_id`. Each attempt queries
`fetch_media_by_id(ids[0])` (recorded in `queries`); early return exactly
when every requested id was collected; on exhaustion the last value of the
items local is returned. `fuel` maintains `fuel = max_attempts + 1 - attempt`. -/
def pollLoopGo (step : ℕ → PollStepOutcome) (ids : List String) :
    ℕ → ℕ → List MediaItem → List String → PollRun
  | 0, attempt, last, q => ⟨last, attempt - 1, false, q⟩
  | fuel + 1, attempt, last, q =>
    let q' := q ++ [ids.headD ""]
    match step attempt with
    | .keep => pollLoopGo step ids fuel (attempt + 1) last q'
    | .replaceNoCheck l => pollLoopGo step ids fuel (attempt + 1) l q'
    | .collected l =>
      if l.length = ids.length then ⟨l, attempt, true, q'⟩
      else pollLoopGo step ids fuel (attempt + 1) l q'

/-- One attempt of the video loop (lines 786-866): an `error` dict keeps
the previous items (`continue` before `videos = []`), a caught mid-scan
exception keeps the partial appends, a completed scan is length-checked. -/
def videoAttemptStep (fetch : ℕ → JVal) (ids : List String) (n : ℕ) :
    PollStepOutcome :=
  match pyInOp "error" (fetch n) with
  | .error _ => .keep
  | .ok hasErr =>
    if hasErr then .keep
    else
      match videoCollect ids (fetch n) with
      | .error pvids => .replaceNoCheck pvids
      | .ok videos => .collected videos

/-- `GenerationAPI.fetch_video_urls_by_media_id`. -/
def fetch_video_urls_by_media_id (fetch : ℕ → JVal) (video_ids : List String)
    (max_attempts : ℕ) : PollRun :=
  if video_ids.isEmpty then ⟨[], 0, false, []⟩
  else pollLoopGo (videoAttemptStep fetch video_ids) video_ids max_attempts 1 [] []

/-- The inner `for image in node_images` loop of the image scan
(lines 961-982); fully guarded, hence total. -/
def imageFeedImages (ids : List String) :
    List JVal → List String → List MediaItem → List MediaItem × List String
  | [], seen, acc => (acc, seen)
  | image :: rest, seen, acc =>
    if ¬image.isDict then imageFeedImages ids rest seen acc
    else
      let image_id := image.get "id"
      let image_url := image.get "url"
      let source_media := image.get "sourceMedia"
      let source_image_url :=
        if source_media.isDict then source_media.get "url" else JVal.jnull
      match image_id with
      | .jstr s =>
        if s ∈ ids ∧ image_url.truthy = true ∧ s ∉ seen then
          imageFeedImages ids rest (seen ++ [s])
            (acc ++ [mkItem s image image_url source_image_url])
        else imageFeedImages ids rest seen acc
      | _ => imageFeedImages ids rest seen acc

/-- The `for edge in edges` loop of the image scan (lines 951-982). -/
def imageFeedEdges (ids : List String) :
    List JVal → List String → List MediaItem → List MediaItem × List String
  | [], seen, acc => (acc, seen)
  | edge :: rest, seen, acc =>
    if ¬edge.isDict then imageFeedEdges ids rest seen acc
    else
      let node := (edge.get "node").pyOr (.jobj [])
      if ¬node.isDict then imageFeedEdges ids rest seen acc
      else
        let node_images := node.getDef "images" (.jarr [])
        if ¬node_images.isList then imageFeedEdges ids rest seen acc
        else
          match imageFeedImages ids node_images.items seen acc with
          | (acc', seen') => imageFeedEdges ids rest seen' acc'

/-- `createRouteMedia` of the image scan, coerced to `{}` when not a dict
(lines 922-924). -/
def imageCrm (data_root : JVal) : JVal :=
  let c := data_root.get "createRouteMedia"
  if ¬c.isDict then .jobj [] else c

/-- One attempt's full image scan over a dict `data_root`
(lines 922-982). -/
def imageCollect (ids : List String) (data_root : JVal) : List MediaItem :=
  let crm := imageCrm data_root
  let start :=
    if crm.truthy then
      let route_id := crm.get "id"
      let route_url := (crm.get "url").pyOr (crm.get "fallbackUrl")
      let source_media := crm.get "sourceMedia"
      let source_image_url :=
        if source_media.isDict then source_media.get "url" else JVal.jnull
      match route_id with
      | .jstr s =>
        if s ∈ ids ∧ route_url.truthy = true ∧ s ∉ ([] : List String) then
          ([mkItem s crm route_url source_image_url], [s])
        else (([] : List MediaItem), ([] : List String))
      | _ => (([] : List MediaItem), ([] : List String))
    else (([] : List MediaItem), ([] : List String))
  let media_feed0 := data_root.get "mediaLibraryFeed"
  let media_feed := if ¬media_feed0.isDict then JVal.jobj [] else media_feed0
  let edges0 := media_feed.getDef "edges" (.jarr [])
  let edges := if ¬edges0.isList then ([] : List JVal) else edges0.items
  (imageFeedEdges ids edges start.2 start.1).1

/-- Outcome classification of one image polling attempt
(lines 897-920): non-dict response and `error` dicts keep the previous
`images` local; a non-dict `data` field leaves it at the just-assigned `[]`;
otherwise the guarded scan runs. -/
inductive ImageAttemptOutcome where
  | notDict : ImageAttemptOutcome
  | errorDict : ImageAttemptOutcome
  | badDataRoot : ImageAttemptOutcome
  | scanned : List MediaItem → ImageAttemptOutcome
  deriving Repr, DecidableEq

/-- One attempt of `fetch_image_urls_by_media_id` on the fetched `data`. -/
def imageAttempt (ids : List String) (data : JVal) : ImageAttemptOutcome :=
  if ¬data.isDict then .notDict
  else if data.hasKey "error" then .errorDict
  else
    let data_root := (data.get "data").pyOr (.jobj [])
    if ¬data_root.isDict then .badDataRoot
    else .scanned (imageCollect ids data_root)

/-- One attempt of the image loop (lines 895-1008) as a generic step. -/
def imageAttemptStep (fetch : ℕ → JVal) (ids : List String) (n : ℕ) :
    PollStepOutcome :=
  match imageAttempt ids (fetch n) with
  | .notDict => .keep
  | .errorDict => .keep
  | .badDataRoot => .replaceNoCheck []
  | .scanned images => .collected images

/-- `GenerationAPI.fetch_image_urls_by_media_id`. -/
def fetch_image_urls_by_media_id (fetch : ℕ → JVal) (image_ids : List String)
    (max_attempts : ℕ) : PollRun :=
  if image_ids.isEmpty then ⟨[], 0, false, []⟩
  else pollLoopGo (imageAttemptStep fetch image_ids) image_ids max_attempts 1 [] []

/-- A constant provider feed for the counterexample: the requested id `a`
is resolved with a URL on every attempt, the id `b` never. -/
def resolvedAOnlyFeed : JVal :=
  JVal.jobj [("data",
    JVal.jobj [("createRouteMedia", JVal.jobj []),
      ("mediaLibraryFeed",
        JVal.jobj [("edges",
          JVal.jarr [
            JVal.jobj [("node",
              JVal.jobj [("videos",
                JVal.jarr [
                  JVal.jobj [("id", JVal.jstr "a"),
                    ("url", JVal.jstr "http://a.mp4")]])])]])])])]

/-- The image-loop analogue of the constant feed: the requested id `a` is
resolved with a URL on every attempt. -/
def resolvedAOnlyImageFeed : JVal :=
  JVal.jobj [("data",
    JVal.jobj [("createRouteMedia", JVal.jobj []),
      ("mediaLibraryFeed",
        JVal.jobj [("edges",
          JVal.jarr [
            JVal.jobj [("node",
              JVal.jobj [("images",
                JVal.jarr [
                  JVal.jobj [("id", JVal.jstr "a"),
                    ("url", JVal.jstr "http://a.png")]])])]])])])]

/-- A value reachable from a provider response: the response itself, an
element of one of its arrays, or a field value of one of its dicts. -/
inductive SubVal : JVal → JVal → Prop where
  | refl (v : JVal) : SubVal v v
  | arr {u v : JVal} {xs : List JVal} : v ∈ xs → SubVal u v → SubVal u (.jarr xs)
  | obj {u v : JVal} {k : String} {fs : List (String × JVal)} :
      (k, v) ∈ fs → SubVal u v → SubVal u (.jobj fs)

/-- A URL the extractors may return: a truthy value found in the response. -/
def GoodUrl (r u : JVal) : Prop := u.truthy = true ∧ SubVal u r

/-- Invariant for intermediate values of the scan: reachable from the
response, or falsy (a default such as `{}` / `[]`, or a `None` lookup), or a
string (a character of an iterated string, or a dict key — `.get` on those
raises, so they never contribute a URL). -/
def ReachOk (r v : JVal) : Prop :=
  SubVal v r ∨ v.truthy = false ∨ ∃ s, v = JVal.jstr s

/-- `keepFirsts seen l`: the elements of `l` not in `seen`, first
occurrences only — the functional core of `dedupFirstAux`. -/
def keepFirsts {α : Type} [DecidableEq α] (seen : List α) : List α → List α
  | [] => []
  | x :: xs =>
    if x ∈ seen then keepFirsts seen xs else x :: keepFirsts (seen ++ [x]) xs

/-- Every element of the accumulator is a truthy value from the response. -/
def AccGood (r : JVal) (acc : List JVal) : Prop := ∀ u ∈ acc, GoodUrl r u

/-- The image nodes of the sample response: the URL `http://a` appears
twice (exercising the deduplication). -/
def sampleImageNodes : JVal :=
  JVal.jarr [
    JVal.jobj [("uri", JVal.jstr "http://a"), ("url", JVal.jstr "http://b")],
    JVal.jobj [("uri", JVal.jstr "http://a")],
    JVal.jobj [("url", JVal.jstr "http://c")]]

/-- A concrete image-generation response around `sampleImageNodes`. -/
def sampleImagineResponse : JVal :=
  JVal.jobj [("data",
    JVal.jobj [("xfb_imagine_send_message",
      JVal.jobj [("messages",
        JVal.jobj [("edges",
          JVal.jarr [
            JVal.jobj [("node",
              JVal.jobj [("content",
                JVal.jobj [("imagine_media",
                  JVal.jobj [("images",
                    JVal.jobj [("nodes", sampleImageNodes)])])])])]])])])])]

/-- The video nodes of the sample fetch response: the delivery block
repeats the URL `http://v`. -/
def sampleVideoNodes : JVal :=
  JVal.jarr [
    JVal.jobj [("video_url", JVal.jstr "http://v"),
      ("videoDeliveryResponseResult",
        JVal.jobj [("progressive_urls",
          JVal.jarr [JVal.jobj [("progressive_url", JVal.jstr "http://v")]])])]]

/-- A concrete video-fetch response around `sampleVideoNodes`. -/
def sampleFetchResponse : JVal :=
  JVal.jobj [("data",
    JVal.jobj [("xfb_genai_fetch_post",
      JVal.jobj [("messages",
        JVal.jobj [("edges",
          JVal.jarr [
            JVal.jobj [("node",
              JVal.jobj [("content",
                JVal.jobj [("imagine_video",
                  JVal.jobj [("videos",
                    JVal.jobj [("nodes", sampleVideoNodes)])])])])]])])])])]

/-! ## Response decoder (claim C5)

`GenerationAPI._parse_response` (lines 411-448), `_parse_multipart_response`
(lines 450-498) and `_parse_sse_response` (lines 500-592). `json.loads` /
`response.json()` is the parameter `pj : String → Except String JVal`: a
`.error` is a raised `json.JSONDecodeError` whose payload is `str(e)`.
A decoder returning `Except Unit JVal` raises (`.error ()`) exactly where an
exception escapes the Python function. -/

/-- `s[:n]`. -/
def pyTake (s : String) (n : ℕ) : String := String.mk (s.data.take n)

/-- `s.split(c)` for a single-character separator. -/
def splitChar (c : Char) : List Char → List (List Char)
  | [] => [[]]
  | x :: xs =>
    match splitChar c xs with
    | [] => if x = c then [[], []] else [[x]]
    | h :: t => if x = c then [] :: h :: t else (x :: h) :: t

/-- `response.text.split(chr(10))` as strings. -/
def splitLines (s : String) : List String :=
  (splitChar (Char.ofNat 10) s.data).map String.mk

/-- The characters after the first occurrence of `c`:
`s.split(c, 1)[1]` when `c` occurs. -/
def afterFirst (c : Char) : List Char → Option (List Char)
  | [] => none
  | x :: xs => if x = c then some xs else afterFirst c xs

/-- `line.split(chr(58), 1)[1]` on a line known to contain a colon. -/
def afterColonStr (s : String) : String :=
  match afterFirst (Char.ofNat 58) s.data with
  | some cs => String.mk cs
  | none => ""

/-- The suffix of `s` from the first occurrence of `c`
(`part[part.find(c):]`), `none` when `find` returns `-1`. -/
def suffixFrom (c : Char) : List Char → Option (List Char)
  | [] => none
  | x :: xs => if x = c then some (x :: xs) else suffixFrom c xs

/-- Worker for `s.split(sep)` with a multi-character separator: `fuel`
bounds the scan (any `fuel ≥ length` is exact), `cur` is the reversed
current segment. -/
def splitSubGo (sep : List Char) : ℕ → List Char → List Char → List (List Char)
  | 0, cur, s => [cur.reverse ++ s]
  | fuel + 1, cur, s =>
    match s with
    | [] => [cur.reverse]
    | x :: xs =>
      if isPrefixOfChars sep s then
        cur.reverse :: splitSubGo sep fuel [] (s.drop sep.length)
      else splitSubGo sep fuel (x :: cur) xs

/-- Python `s.split(sep)` for a non-empty separator string. -/
def splitOnSub (sep s : String) : List String :=
  (splitSubGo sep.data (s.data.length + 1) [] s.data).map String.mk

/-- A response as far as the decoder inspects it: status code, the
`Content-Type` header (`headers.get` with default empty) and the body. -/
structure DecoderResponse where
  status_code : ℕ
  content_type : String
  text : String
  deriving Repr, DecidableEq

/-- The `result` dict built by `_parse_sse_response` (its `status_code` key
is fixed at construction, `events` accumulates decoded data lines). -/
structure SSEState where
  streaming_state : JVal
  images : List JVal
  videos : List JVal
  image_objects : List JVal
  video_objects : List JVal
  conversation_id : JVal
  message : JVal
  events : List JVal
  deriving Repr, DecidableEq

/-- The initial `result` dict of `_parse_sse_response` (lines 511-522). -/
def initSSEState : SSEState :=
  { streaming_state := .jnull, images := [], videos := [], image_objects := [],
    video_objects := [], conversation_id := .jnull, message := .jnull,
    events := [] }

/-- Rebuild the returned `result` dict in its source key order. -/
def sseResultObj (status : ℕ) (st : SSEState) : JVal :=
  .jobj [("status_code", .jnum status), ("streaming_state", st.streaming_state),
    ("images", .jarr st.images), ("videos", .jarr st.videos),
    ("image_objects", .jarr st.image_objects),
    ("video_objects", .jarr st.video_objects),
    ("conversation_id", st.conversation_id), ("message", st.message),
    ("events", .jarr st.events)]

/-- `for img in msg.images` (lines 550-557): URL dedup into `images`,
object dedup into `image_objects`; `img.get` raises on a non-dict. -/
def sseImagesLoop : List JVal → SSEState → Except Unit SSEState
  | [], st => .ok st
  | img :: rest, st =>
    match img.tryGet "url" with
    | .error _ => .error ()
    | .ok img_url =>
      let st1 := if img_url.truthy = true ∧ img_url ∉ st.images then
          { st with images := st.images ++ [img_url] } else st
      let st2 := if img ∉ st1.image_objects then
          { st1 with image_objects := st1.image_objects ++ [img] } else st1
      sseImagesLoop rest st2

/-- `for vid in msg.videos` (lines 560-570). -/
def sseVideosLoop : List JVal → SSEState → Except Unit SSEState
  | [], st => .ok st
  | vid :: rest, st =>
    match vid.tryGet "url" with
    | .error _ => .error ()
    | .ok vid_url =>
      match vid.tryGet "id" with
      | .error _ => .error ()
      | .ok _vid_id =>
        let st1 := if vid_url.truthy = true ∧ vid_url ∉ st.videos then
            { st with videos := st.videos ++ [vid_url] } else st
        let st2 := if vid ∉ st1.video_objects then
            { st1 with video_objects := st1.video_objects ++ [vid] } else st1
        sseVideosLoop rest st2

/-- Lines 549-557: the `images`-in-`msg` truthiness guard, then the image
loop over `msg.images`. -/
def sseImagesStage (msg : JVal) (st : SSEState) : Except Unit SSEState :=
  match pyInOp "images" msg with
  | .error _ => .error ()
  | .ok hi =>
    if hi then
      match trySubscript msg "images" with
      | .error _ => .error ()
      | .ok imgsVal =>
        if imgsVal.truthy then
          match imgsVal.pyIterE with
          | .error _ => .error ()
          | .ok imgs => sseImagesLoop imgs st
        else .ok st
    else .ok st

/-- Lines 559-570: the videos guard and loop. -/
def sseVideosStage (msg : JVal) (st : SSEState) : Except Unit SSEState :=
  match pyInOp "videos" msg with
  | .error _ => .error ()
  | .ok hv =>
    if hv then
      match trySubscript msg "videos" with
      | .error _ => .error ()
      | .ok vidsVal =>
        if vidsVal.truthy then
          match vidsVal.pyIterE with
          | .error _ => .error ()
          | .ok vids => sseVideosLoop vids st
        else .ok st
    else .ok st

/-- Lines 572-574: `if message in msg: result.message = msg.message`. -/
def sseMessageStage (msg : JVal) (st : SSEState) : Except Unit SSEState :=
  match pyInOp "message" msg with
  | .error _ => .error ()
  | .ok hm =>
    if hm then
      match trySubscript msg "message" with
      | .error _ => .error ()
      | .ok mv => .ok { st with message := mv }
    else .ok st

/-- Lines 540-574: processing of one decoded `sendMessageStream` message:
streaming state, conversation id, images, videos, message text. -/
def sseMsgProcess (msg : JVal) (st : SSEState) : Except Unit SSEState :=
  match msg.tryGetDef "streamingState" (.jstr "UNKNOWN") with
  | .error _ => .error ()
  | .ok ss =>
    match msg.tryGet "conversationId" with
    | .error _ => .error ()
    | .ok conv =>
      let st1 := { st with streaming_state := ss }
      let st2 := if conv.truthy = true ∧ st1.conversation_id.truthy = false then
          { st1 with conversation_id := conv } else st1
      match sseImagesStage msg st2 with
      | .error e => .error e
      | .ok st3 =>
        match sseVideosStage msg st3 with
        | .error e => .error e
        | .ok st4 => sseMessageStage msg st4

/-- Lines 534-577: one `data:` line. A `json.JSONDecodeError` from the
line's payload is caught (`continue`, state unchanged); any exception from
the processing after a successful decode propagates. -/
def sseDataLine (pj : String → Except String JVal) (data_str : String)
    (st : SSEState) : Except Unit SSEState :=
  match pj data_str with
  | .error _ => .ok st
  | .ok data =>
    let st' := { st with events := st.events ++ [data] }
    match pyInOp "data" data with
    | .error _ => .error ()
    | .ok hd =>
      if hd then
        match trySubscript data "data" with
        | .error _ => .error ()
        | .ok dd =>
          match pyInOp "sendMessageStream" dd with
          | .error _ => .error ()
          | .ok hs =>
            if hs then
              match trySubscript dd "sendMessageStream" with
              | .error _ => .error ()
              | .ok msg => sseMsgProcess msg st'
            else .ok st'
      else .ok st'

/-- Lines 525-577: the stripped-line dispatcher: blank lines and `event:`
lines are skipped (the parsed event name is never read), `data:` lines are
decoded and processed. -/
def sseLines (pj : String → Except String JVal) :
    List String → SSEState → Except Unit SSEState
  | [], st => .ok st
  | line0 :: rest, st =>
    let line := pyStrip line0
    if line = "" then sseLines pj rest st
    else if isPrefixOfChars "event:".data line.data then sseLines pj rest st
    else if isPrefixOfChars "data:".data line.data then
      match sseDataLine pj (pyStrip (afterColonStr line)) st with
      | .error e => .error e
      | .ok st' => sseLines pj rest st'
    else sseLines pj rest st

/-- `GenerationAPI._parse_sse_response` (lines 500-592): the whole line loop
sits in a `try/except Exception` returning an error dict, so the function
always returns a value. -/
def parse_sse_response (pj : String → Except String JVal)
    (r : DecoderResponse) : JVal :=
  match sseLines pj (splitLines r.text) initSSEState with
  | .ok st => sseResultObj r.status_code st
  | .error _ =>
    .jobj [("error", .jstr "SSE parse failed"),
      ("raw_response", .jstr (pyTake r.text 500)),
      ("status_code", .jnum r.status_code)]

/-- Lines 477-495: the `for part in parts` loop with its
`parts` / `data` accumulators. Only `json.JSONDecodeError` is caught
(`continue`); `parsed.get` on a non-dict part raises out of the loop. -/
def multipartParts (pj : String → Except String JVal) :
    List String → List JVal → Option JVal →
    Except Unit (List JVal × Option JVal)
  | [], parts, dataAcc => .ok (parts, dataAcc)
  | part :: rest, parts, dataAcc =>
    if pyStrip part = "" ∨ pyStrip part = "--" then
      multipartParts pj rest parts dataAcc
    else if pyInStr "Content-Type: application/json" part ∨ pyInStr "\x7b" part then
      match suffixFrom (Char.ofNat 123) part.data with
      | none => multipartParts pj rest parts dataAcc
      | some tailChars =>
        match pj (pyStrip (String.mk tailChars)) with
        | .error _ => multipartParts pj rest parts dataAcc
        | .ok parsed =>
          match dataAcc with
          | some d => multipartParts pj rest (parts ++ [parsed]) (some d)
          | none =>
            match parsed.tryGet "data" with
            | .error _ => .error ()
            | .ok dv =>
              if dv.truthy then
                multipartParts pj rest (parts ++ [parsed]) (some parsed)
              else multipartParts pj rest (parts ++ [parsed]) none
    else multipartParts pj rest parts dataAcc

/-- `GenerationAPI._parse_multipart_response` (lines 450-498). With no (or
an empty) boundary, and again when no part supplied truthy `data`, it falls
back to `response.json()`, which raises on an undecodable body; nothing in
`_parse_response` catches that. -/
def parse_multipart_response (pj : String → Except String JVal)
    (r : DecoderResponse) : Except Unit JVal :=
  let ct := r.content_type
  let boundary : String :=
    if pyInStr "boundary=" ct then
      pyStrip ((splitOnSub ";" ((splitOnSub "boundary=" ct).getD 1 "")).getD 0 "")
    else ""
  if boundary = "" then
    match pj r.text with
    | .ok v => .ok v
    | .error _ => .error ()
  else
    match multipartParts pj (splitOnSub ("--" ++ boundary) r.text) [] none with
    | .error e => .error e
    | .ok (parts, dataAcc) =>
      match dataAcc with
      | some d => .ok (.jobj [("parts", .jarr parts), ("data", d)])
      | none =>
        match pj r.text with
        | .ok v => .ok v
        | .error _ => .error ()

/-- `GenerationAPI._parse_response` (lines 411-448): empty-body / error
status short-circuit, then dispatch on `Content-Type`; the bare-JSON
transport catches every decode failure, the multipart helper is called
unprotected. -/
def parse_response (pj : String → Except String JVal)
    (r : DecoderResponse) : Except Unit JVal :=
  if r.text = "" ∨ 400 ≤ r.status_code then
    let base := "API returned status " ++ Nat.repr r.status_code
    let error_msg :=
      if r.text = "" then base ++ ": Empty response body"
      else base ++ ": " ++ pyTake r.text 200
    .ok (.jobj [("error", .jstr error_msg), ("status_code", .jnum r.status_code)])
  else if pyInStr "multipart/mixed" r.content_type then
    parse_multipart_response pj r
  else if pyInStr "text/event-stream" r.content_type then
    .ok (parse_sse_response pj r)
  else
    match pj r.text with
    | .ok v => .ok v
    | .error e =>
      .ok (.jobj [("error", .jstr ("JSON parse failed: " ++ e)),
        ("raw_response", .jstr (pyTake r.text 500))])

/-- A `json.loads` that rejects every input, as it does on the plain-text
bodies used in the decoder scenarios. -/
def jsonLoadsFail : String → Except String JVal :=
  fun _ => .error "Expecting value"

end MetaaiApi

namespace MetaaiApi

/-! # Theorems -/

theorem imageBackoffFactor_mono {a b : ℕ} (h : a ≤ b) :
    imageBackoffFactor a ≤ imageBackoffFactor b := by
  unfold imageBackoffFactor
  split_ifs <;> (try (exfalso; omega)) <;> norm_num

/-- C3: for every attempt count, the inter-attempt delay schedule of the
media-resolution polling loops is monotonically non-decreasing in the attempt
number and never exceeds the configured ceiling: for images the delay is
`min(wait_seconds * factor(attempt), 5)` with ceiling `5`, for videos it is
the constant `wait_seconds`. -/
theorem backoff_schedule_monotone_bounded (w : ℚ) (a b : ℕ)
    (hw : 0 ≤ w) (hab : a ≤ b) :
    imagePollDelay w a ≤ imagePollDelay w b ∧ imagePollDelay w a ≤ 5 ∧
    videoPollDelay w a ≤ videoPollDelay w b ∧ videoPollDelay w a ≤ w := by
  refine ⟨?_, ?_, le_rfl, le_rfl⟩
  · exact min_le_min (mul_le_mul_of_nonneg_left (imageBackoffFactor_mono hab) hw) le_rfl
  · exact min_le_right _ _

/-- Witness for C3 at the source defaults `wait_seconds = 2`, attempts 2 and 9. -/
theorem backoff_schedule_monotone_bounded_witness :
    0 ≤ (2 : ℚ) ∧ (2 : ℕ) ≤ 9 ∧
    (imagePollDelay 2 2 ≤ imagePollDelay 2 9 ∧ imagePollDelay 2 2 ≤ 5 ∧
     videoPollDelay 2 2 ≤ videoPollDelay 2 9 ∧ videoPollDelay 2 2 ≤ 2) :=
  ⟨by norm_num, by norm_num,
   backoff_schedule_monotone_bounded 2 2 9 (by norm_num) (by norm_num)⟩

/-- C2 (code bug): a 200-status body that consists of the auth-failure phrase
"access token required" — in any casing — is NOT detected, because the source
compares the indicator string "Access token required" (capital A) against the
lowercased body, so that indicator can never match; the third conjunct shows
the body does contain the phrase case-insensitively, and the remaining
conjuncts show the 403 trigger, another phrase trigger, and the
no-phrase-200 case behave as the claim states. -/
theorem auth_detection_misses_access_token_phrase :
    check_response_for_auth_error ⟨200, "access token required"⟩ = false ∧
    check_response_for_auth_error ⟨200, "Access token required"⟩ = false ∧
    pyInStr "access token required" (pyLower "Access token required") = true ∧
    check_response_for_auth_error ⟨403, ""⟩ = true ∧
    check_response_for_auth_error ⟨200, "Error: UNAUTHORIZED request"⟩ = true ∧
    check_response_for_auth_error ⟨200, "\x7b\"data\": \x7b\x7d\x7d"⟩ = false := by
  decide

/-- C8: a non-forced refresh is a no-op (state kept, no exception) when the
minimum interval has not elapsed; on derivation failure the stored credentials
are retained unchanged and an exception propagates exactly when `force` is
set; a successful derivation never raises. -/
theorem token_refresh_semantics (R : ℚ) (st : TokenCacheState)
    (t1 t2 t3 u1 u2 u3 : ℚ) (c : List (String × String))
    (hint : t1 - st.lastRefresh < R) :
    refresh_if_needed R st false t1 t2 t3 (.ok c) = (st, false) ∧
    refresh_if_needed R st false u1 u2 u3 .exn = (st, false) ∧
    refresh_if_needed R st true u1 u2 u3 .exn = (st, true) ∧
    (refresh_if_needed R st true u1 u2 u3 (.ok c)).2 = false ∧
    (refresh_if_needed R st false u1 u2 u3 (.ok c)).2 = false := by
  refine ⟨?_, ?_, ?_, ?_, ?_⟩
  · simp only [refresh_if_needed]
    rw [if_pos ⟨by simp, hint⟩]
  · unfold refresh_if_needed; split_ifs <;> rfl
  · unfold refresh_if_needed
    split_ifs with h1 h2
    · exact absurd h1.1 (by simp)
    · exact absurd h2.1 (by simp)
    · rfl
  · unfold refresh_if_needed
    split_ifs with h1 h2
    · exact absurd h1.1 (by simp)
    · exact absurd h2.1 (by simp)
    · rfl
  · unfold refresh_if_needed; split_ifs <;> rfl

theorem jobsFind_map_update (store : JobTable) (id : String) (g : Job → Job)
    (j : Job) (h : jobsFind store id = some j) :
    jobsFind (store.map (fun p => if p.1 = id then (p.1, g p.2) else p)) id
      = some (g j) := by
  induction store with
  | nil => simp [jobsFind] at h
  | cons hd tl ih =>
    obtain ⟨k, v⟩ := hd
    simp only [List.map_cons]
    by_cases hk : k = id
    · subst hk
      unfold jobsFind at h
      rw [if_pos rfl] at h
      injection h with h
      subst h
      show jobsFind ((if k = k then (k, g v) else (k, v)) :: _) k = some (g v)
      rw [if_pos rfl]
      unfold jobsFind
      rw [if_pos rfl]
    · show jobsFind ((if k = id then (k, g v) else (k, v)) :: _) id = _
      rw [if_neg hk]
      simp only [jobsFind, if_neg hk] at h ⊢
      exact ih h

theorem jobsUpdate_spec (store : JobTable) (id : String) (now : ℚ) (f : Job → Job)
    (j : Job) (hj : jobsFind store id = some j) :
    ∃ store', jobsUpdate store id now f = some store' ∧
      jobsFind store' id = some { f j with updatedAt := now } := by
  have h1 : jobsUpdate store id now f =
      some (store.map (fun p =>
        if p.1 = id then (p.1, { f p.2 with updatedAt := now }) else p)) := by
    simp only [jobsUpdate, hj]
  exact ⟨_, h1,
    jobsFind_map_update store id (fun x => { f x with updatedAt := now }) j hj⟩

/-- C4: a completed video job is `succeeded` iff the generation result has
`success` set and a non-empty `video_urls` list; a `success:true` result with
an empty list is recorded as `failed` with the descriptive (non-empty)
no-URLs error; and looking up a job id not in the table yields HTTP 404,
never a `pending` status. -/
theorem video_job_terminal_state (store : JobTable) (id badId : String)
    (now : ℚ) (r : GenResult) (j : Job)
    (hj : jobsFind store id = some j) (hbad : jobsFind store badId = none) :
    (∃ store', runVideoJobFinish store id now (.returned r) = some store' ∧
      ∃ j', jobsFind store' id = some j' ∧
        ((j'.status = .succeeded ↔ (r.success = true ∧ r.video_urls ≠ [])) ∧
         (r.success = true → r.video_urls = [] →
            j'.status = .failed ∧ j'.error = some noUrlsErrorMsg))) ∧
    noUrlsErrorMsg ≠ "" ∧
    video_job_status store badId = .error 404 := by
  refine ⟨?_, by decide, ?_⟩
  · by_cases hcond : r.success = true ∧ r.video_urls ≠ []
    · obtain ⟨store', h1, h2⟩ := jobsUpdate_spec store id now
        (fun jx => { jx with status := .succeeded, result := some r, error := none }) j hj
      refine ⟨store', ?_, _, h2, ?_, ?_⟩
      · simp only [runVideoJobFinish]
        rw [if_pos hcond]
        exact h1
      · exact iff_of_true rfl hcond
      · exact fun _ hu => absurd hu hcond.2
    · by_cases hsucc : r.success = true
      · obtain ⟨store', h1, h2⟩ := jobsUpdate_spec store id now
          (fun jx => { jx with status := .failed, error := some noUrlsErrorMsg }) j hj
        refine ⟨store', ?_, _, h2, ?_, ?_⟩
        · simp only [runVideoJobFinish]
          rw [if_neg hcond, if_neg (by simp [hsucc])]
          exact h1
        · exact iff_of_false (by simp) hcond
        · exact fun _ _ => ⟨rfl, rfl⟩
      · obtain ⟨store', h1, h2⟩ := jobsUpdate_spec store id now
          (fun jx => { jx with status := .failed, error := some (r.error.getD "Video generation failed") }) j hj
        refine ⟨store', ?_, _, h2, ?_, ?_⟩
        · simp only [runVideoJobFinish]
          rw [if_neg hcond, if_pos (by simp [hsucc])]
          exact h1
        · exact iff_of_false (by simp) hcond
        · exact fun hs _ => absurd hs hsucc
  · unfold video_job_status
    rw [hbad]

/-- Witness for C4: a one-job table, the job id, an unknown id, and a
successful one-URL generation result. -/
theorem video_job_terminal_state_witness :
    jobsFind [("a", ⟨"a", .running, 0, 0, none, none⟩)] "a"
      = some ⟨"a", .running, 0, 0, none, none⟩ ∧
    jobsFind [("a", ⟨"a", .running, 0, 0, none, none⟩)] "b" = none ∧
    ((∃ store', runVideoJobFinish [("a", ⟨"a", .running, 0, 0, none, none⟩)] "a" 1
        (.returned ⟨true, ["http://v/1.mp4"], none⟩) = some store' ∧
      ∃ j', jobsFind store' "a" = some j' ∧
        ((j'.status = .succeeded ↔
            ((true : Bool) = true ∧ (["http://v/1.mp4"] : List String) ≠ [])) ∧
         ((true : Bool) = true → (["http://v/1.mp4"] : List String) = [] →
            j'.status = .failed ∧ j'.error = some noUrlsErrorMsg))) ∧
     noUrlsErrorMsg ≠ "" ∧
     video_job_status [("a", ⟨"a", .running, 0, 0, none, none⟩)] "b" = .error 404) :=
  ⟨by decide, by decide,
   video_job_terminal_state [("a", ⟨"a", .running, 0, 0, none, none⟩)] "a" "b" 1
     ⟨true, ["http://v/1.mp4"], none⟩ ⟨"a", .running, 0, 0, none, none⟩
     (by decide) (by decide)⟩

/-- C6 counterexample: for the concrete image request with prompt
"a red ball", the built request variables contain the prompt string twice —
as the `content` field and as
`imagineOperationRequest.textToImageParams.prompt` — not exactly once. -/
theorem prompt_occurs_twice_in_image_variables :
    strCount (generate_image_variables "a red ball" (some "SQUARE")
      ⟨"conv-1", "user-1", "asst-1", "turn-1", "ps-1", "123"⟩
      ⟨none, none, none, none, none, none, none, none, none⟩) "a red ball" = 2 := by
  decide

/-- C6 (amended): for every prompt of length > 0, the image request builder
places the prompt in the designated prompt field
(`imagineOperationRequest.textToImageParams.prompt`) and additionally echoes
it as the `content` field (image builds use an empty content prefix);
building reads but never changes the input prompt and kwargs. -/
theorem image_build_prompt_placement (prompt : String) (orientation : Option String)
    (ids : FreshIds) (kw : BuildKwargs) (_hp : prompt ≠ "") :
    (((generate_image_variables prompt orientation ids kw).get
        "imagineOperationRequest").get "textToImageParams").get "prompt"
      = .jstr prompt ∧
    (generate_image_variables prompt orientation ids kw).get "content"
      = .jstr prompt ∧
    (build_base_variables_full prompt "TEXT_TO_IMAGE" "" ids kw).2 = (prompt, kw) :=
  ⟨rfl, rfl, rfl⟩

/-- Witness for C6's amended theorem at the prompt "a red ball". -/
theorem image_build_prompt_placement_witness :
    ("a red ball" : String) ≠ "" ∧
    ((((generate_image_variables "a red ball" (some "SQUARE")
          ⟨"conv-1", "user-1", "asst-1", "turn-1", "ps-1", "123"⟩
          ⟨none, none, none, none, none, none, none, none, none⟩).get
        "imagineOperationRequest").get "textToImageParams").get "prompt"
      = .jstr "a red ball" ∧
     (generate_image_variables "a red ball" (some "SQUARE")
          ⟨"conv-1", "user-1", "asst-1", "turn-1", "ps-1", "123"⟩
          ⟨none, none, none, none, none, none, none, none, none⟩).get "content"
      = .jstr "a red ball" ∧
     (build_base_variables_full "a red ball" "TEXT_TO_IMAGE" ""
          ⟨"conv-1", "user-1", "asst-1", "turn-1", "ps-1", "123"⟩
          ⟨none, none, none, none, none, none, none, none, none⟩).2
      = ("a red ball", ⟨none, none, none, none, none, none, none, none, none⟩)) :=
  ⟨by decide,
   image_build_prompt_placement "a red ball" (some "SQUARE")
     ⟨"conv-1", "user-1", "asst-1", "turn-1", "ps-1", "123"⟩
     ⟨none, none, none, none, none, none, none, none, none⟩ (by decide)⟩

theorem optTruthy_false_of_getD {o : Option String} (h : o.getD "" = "") :
    optTruthy o = false := by
  cases o <;> simp_all [optTruthy]

/-- C9 counterexample: at the concrete input "every `META_AI_*` variable
unset, no explicit cookies", the `MetaAI` constructor does not fail with a
configuration error — it falls back to `get_cookies()`, the landing-page
fetch over the network, contradicting "construction fails immediately with a
configuration error and no network call is attempted". -/
theorem metaai_missing_tokens_fetches_page :
    metaai_cookie_source emptyMetaEnv none = .pageFetch := by decide

/-- C9 (amended): when a mandatory session token is missing after consulting
the environment, the server's `TokenCache.load_seed` fails immediately with a
configuration error (its body performs no network call); the `MetaAI`
constructor instead falls back to the best-effort landing-page fetch when
explicit cookies are also absent. -/
theorem seed_load_missing_tokens (env : MetaEnv)
    (hmiss : env.datr.getD "" = "" ∨ env.abra_sess.getD "" = "") :
    (∃ msg, load_seed env = .error msg) ∧
    metaai_cookie_source env none = .pageFetch := by
  constructor
  · have hdatr : seedGet (seedPairs env) "datr" = env.datr.getD "" := rfl
    have habra : seedGet (seedPairs env) "abra_sess" = env.abra_sess.getD "" := rfl
    by_cases h1 : env.datr.getD "" = "" <;> by_cases h2 : env.abra_sess.getD "" = ""
    · refine ⟨"Missing required seed cookies: datr, abra_sess", ?_⟩
      simp [load_seed, List.filter, hdatr, habra, h1, h2]
      try decide
    · refine ⟨"Missing required seed cookies: datr", ?_⟩
      simp [load_seed, List.filter, hdatr, habra, h1, h2]
      try decide
    · refine ⟨"Missing required seed cookies: abra_sess", ?_⟩
      simp [load_seed, List.filter, hdatr, habra, h1, h2]
      try decide
    · rcases hmiss with h | h
      · exact absurd h h1
      · exact absurd h h2
  · have : ¬(optTruthy env.datr ∧ optTruthy env.abra_sess) := by
      rcases hmiss with h | h
      · simp [optTruthy_false_of_getD h]
      · simp [optTruthy_false_of_getD h]
    simp only [metaai_cookie_source, load_cookies_from_env]
    rw [if_neg this]

/-- Witness for C9's amended theorem at the all-unset environment. -/
theorem seed_load_missing_tokens_witness :
    (emptyMetaEnv.datr.getD "" = "" ∨ emptyMetaEnv.abra_sess.getD "" = "") ∧
    ((∃ msg, load_seed emptyMetaEnv = .error msg) ∧
     metaai_cookie_source emptyMetaEnv none = .pageFetch) :=
  ⟨Or.inl (by decide), seed_load_missing_tokens emptyMetaEnv (Or.inl (by decide))⟩

theorem dedupFirstAux_eq_keepFirsts {α : Type} [DecidableEq α]
    (l acc : List α) : dedupFirstAux acc l = acc ++ keepFirsts acc l := by
  induction l generalizing acc with
  | nil => simp [dedupFirstAux, keepFirsts]
  | cons x xs ih =>
    by_cases hx : x ∈ acc
    · simp [dedupFirstAux, keepFirsts, hx, ih]
    · simp [dedupFirstAux, keepFirsts, hx, ih]

theorem dedupFirst_eq_keepFirsts {α : Type} [DecidableEq α] (l : List α) :
    dedupFirst l = keepFirsts [] l := by
  simpa [dedupFirst] using dedupFirstAux_eq_keepFirsts l []

theorem mem_keepFirsts {α : Type} [DecidableEq α] {x : α} (seen l : List α) :
    x ∈ keepFirsts seen l ↔ x ∈ l ∧ x ∉ seen := by
  induction l generalizing seen with
  | nil => simp [keepFirsts]
  | cons y ys ih =>
    by_cases hy : y ∈ seen
    · simp only [keepFirsts, if_pos hy, ih, List.mem_cons]
      constructor
      · exact fun ⟨h1, h2⟩ => ⟨Or.inr h1, h2⟩
      · rintro ⟨h1 | h1, h2⟩
        · exact absurd (h1 ▸ hy) h2
        · exact ⟨h1, h2⟩
    · simp only [keepFirsts, if_neg hy, List.mem_cons, ih]
      constructor
      · rintro (rfl | ⟨h1, h2⟩)
        · exact ⟨Or.inl rfl, hy⟩
        · refine ⟨Or.inr h1, fun hx => h2 ?_⟩
          simp [hx]
      · rintro ⟨rfl | h1, h2⟩
        · exact Or.inl rfl
        · by_cases hxy : x = y
          · exact Or.inl hxy
          · exact Or.inr ⟨h1, by simp [h2, hxy]⟩

theorem keepFirsts_sublist {α : Type} [DecidableEq α] (seen l : List α) :
    List.Sublist (keepFirsts seen l) l := by
  induction l generalizing seen with
  | nil => simp [keepFirsts]
  | cons y ys ih =>
    by_cases hy : y ∈ seen
    · simp only [keepFirsts, if_pos hy]
      exact (ih seen).cons y
    · simp only [keepFirsts, if_neg hy]
      exact (ih (seen ++ [y])).cons₂ y

theorem keepFirsts_nodup {α : Type} [DecidableEq α] (seen l : List α) :
    (keepFirsts seen l).Nodup := by
  induction l generalizing seen with
  | nil => simp [keepFirsts]
  | cons y ys ih =>
    by_cases hy : y ∈ seen
    · simp only [keepFirsts, if_pos hy]
      exact ih seen
    · simp only [keepFirsts, if_neg hy]
      refine List.Nodup.cons ?_ (ih (seen ++ [y]))
      intro hmem
      have := (mem_keepFirsts (seen ++ [y]) ys).mp hmem
      simp at this

theorem keepFirsts_pairwise_firstIdx {α : Type} [DecidableEq α] (seen l : List α) :
    (keepFirsts seen l).Pairwise (fun a b => l.indexOf a < l.indexOf b) := by
  induction l generalizing seen with
  | nil => simp [keepFirsts]
  | cons y ys ih =>
    by_cases hy : y ∈ seen
    · simp only [keepFirsts, if_pos hy]
      refine ((ih seen).imp_of_mem ?_)
      intro a b ha hb hab
      have ha' := (mem_keepFirsts seen ys).mp ha
      have hb' := (mem_keepFirsts seen ys).mp hb
      have hay : a ≠ y := fun h => ha'.2 (h ▸ hy)
      have hby : b ≠ y := fun h => hb'.2 (h ▸ hy)
      rw [List.indexOf_cons_ne _ (Ne.symm hay),
          List.indexOf_cons_ne _ (Ne.symm hby)]
      omega
    · simp only [keepFirsts, if_neg hy]
      refine List.Pairwise.cons ?_ ?_
      · intro b hb
        have hb' := (mem_keepFirsts (seen ++ [y]) ys).mp hb
        have hby : b ≠ y := by
          intro h
          exact hb'.2 (by simp [h])
        rw [List.indexOf_cons_self, List.indexOf_cons_ne _ (Ne.symm hby)]
        omega
      · refine ((ih (seen ++ [y])).imp_of_mem ?_)
        intro a b ha hb hab
        have ha' := (mem_keepFirsts (seen ++ [y]) ys).mp ha
        have hb' := (mem_keepFirsts (seen ++ [y]) ys).mp hb
        have hay : a ≠ y := fun h => ha'.2 (by simp [h])
        have hby : b ≠ y := fun h => hb'.2 (by simp [h])
        rw [List.indexOf_cons_ne _ (Ne.symm hay),
            List.indexOf_cons_ne _ (Ne.symm hby)]
        omega

theorem SubVal.trans {u v w : JVal} (h1 : SubVal u v) (h2 : SubVal v w) :
    SubVal u w := by
  induction h2 with
  | refl => exact h1
  | arr hm _ ih => exact .arr hm ih
  | obj hm _ ih => exact .obj hm ih

theorem subval_of_entry {k : String} {v : JVal} {fs : List (String × JVal)}
    (h : (k, v) ∈ fs) : SubVal v (.jobj fs) := .obj h (.refl v)

theorem subval_of_elem {v : JVal} {xs : List JVal} (h : v ∈ xs) :
    SubVal v (.jarr xs) := .arr h (.refl v)

theorem reachOk_of_falsy {r v : JVal} (h : v.truthy = false) : ReachOk r v :=
  Or.inr (Or.inl h)

theorem tryGet_reach {r v u : JVal} {k : String} (hv : ReachOk r v)
    (h : v.tryGet k = .ok u) : ReachOk r u ∧ (u.truthy = true → SubVal u r) := by
  cases v with
  | jobj fs =>
    simp only [JVal.tryGet] at h
    injection h with h
    rcases hfind : fs.find? (fun p => p.1 = k) with _ | kv
    · rw [hfind] at h
      simp at h
      subst h
      exact ⟨reachOk_of_falsy rfl, by simp [JVal.truthy]⟩
    · rw [hfind] at h
      simp at h
      obtain ⟨k', v'⟩ := kv
      have hmem : (k', v') ∈ fs := List.mem_of_find?_eq_some hfind
      have hsub : SubVal u (.jobj fs) := by
        subst h
        exact subval_of_entry hmem
      rcases hv with hv | hv | hv
      · have : SubVal u r := hsub.trans hv
        exact ⟨Or.inl this, fun _ => this⟩
      · exfalso
        simp [JVal.truthy] at hv
        subst hv
        simp [List.find?] at hfind
      · exact absurd hv (by simp)
  | jnull => simp [JVal.tryGet] at h
  | jbool b => simp [JVal.tryGet] at h
  | jnum n => simp [JVal.tryGet] at h
  | jstr s => simp [JVal.tryGet] at h
  | jarr xs => simp [JVal.tryGet] at h

theorem tryGetDef_reach {r v u dflt : JVal} {k : String}
    (hv : ReachOk r v) (h : v.tryGetDef k dflt = .ok u)
    (hd : dflt.truthy = false) :
    ReachOk r u ∧ (u.truthy = true → SubVal u r) := by
  cases v with
  | jobj fs =>
    simp only [JVal.tryGetDef] at h
    injection h with h
    rcases hfind : fs.find? (fun p => p.1 = k) with _ | kv
    · rw [hfind] at h
      simp at h
      subst h
      exact ⟨reachOk_of_falsy hd, by simp [hd]⟩
    · rw [hfind] at h
      simp at h
      obtain ⟨k', v'⟩ := kv
      have hmem : (k', v') ∈ fs := List.mem_of_find?_eq_some hfind
      have hsub : SubVal u (.jobj fs) := by
        subst h
        exact subval_of_entry hmem
      rcases hv with hv | hv | hv
      · have : SubVal u r := hsub.trans hv
        exact ⟨Or.inl this, fun _ => this⟩
      · exfalso
        simp [JVal.truthy] at hv
        subst hv
        simp [List.find?] at hfind
      · exact absurd hv (by simp)
  | jnull => simp [JVal.tryGetDef] at h
  | jbool b => simp [JVal.tryGetDef] at h
  | jnum n => simp [JVal.tryGetDef] at h
  | jstr s => simp [JVal.tryGetDef] at h
  | jarr xs => simp [JVal.tryGetDef] at h

theorem trySubscript_reach {r v u : JVal} {k : String} (hv : ReachOk r v)
    (h : trySubscript v k = .ok u) :
    ReachOk r u ∧ (u.truthy = true → SubVal u r) := by
  cases v with
  | jobj fs =>
    simp only [trySubscript] at h
    rcases hfind : fs.find? (fun p => p.1 = k) with _ | kv
    · rw [hfind] at h
      simp at h
    · rw [hfind] at h
      simp at h
      obtain ⟨k', v'⟩ := kv
      have hmem : (k', v') ∈ fs := List.mem_of_find?_eq_some hfind
      have hsub : SubVal u (.jobj fs) := by
        subst h
        exact subval_of_entry hmem
      rcases hv with hv | hv | hv
      · have : SubVal u r := hsub.trans hv
        exact ⟨Or.inl this, fun _ => this⟩
      · exfalso
        simp [JVal.truthy] at hv
        subst hv
        simp [List.find?] at hfind
      · exact absurd hv (by simp)
  | jnull => simp [trySubscript] at h
  | jbool b => simp [trySubscript] at h
  | jnum n => simp [trySubscript] at h
  | jstr s => simp [trySubscript] at h
  | jarr xs => simp [trySubscript] at h

theorem tryGetOr_reach {r v u : JVal} {k1 k2 : String} (hv : ReachOk r v)
    (h : tryGetOr v k1 k2 = .ok u) :
    ReachOk r u ∧ (u.truthy = true → SubVal u r) := by
  unfold tryGetOr at h
  rcases h1 : v.tryGet k1 with e | a
  · rw [h1] at h
    simp at h
  · rw [h1] at h
    simp at h
    by_cases ha : a.truthy
    · rw [if_pos ha] at h
      simp at h
      subst h
      exact tryGet_reach hv h1
    · rw [if_neg ha] at h
      exact tryGet_reach hv h

theorem pyOr_reach {r a b : JVal} (hva : ReachOk r a) (hvb : ReachOk r b) :
    ReachOk r (a.pyOr b) := by
  unfold JVal.pyOr
  split_ifs <;> assumption

theorem pyIterE_reach {r v : JVal} {xs : List JVal} (hv : ReachOk r v)
    (h : v.pyIterE = .ok xs) : ∀ x ∈ xs, ReachOk r x := by
  cases v with
  | jarr ys =>
    simp only [JVal.pyIterE] at h
    injection h with h
    subst h
    intro x hx
    rcases hv with hv | hv | hv
    · exact Or.inl ((subval_of_elem hx).trans hv)
    · simp [JVal.truthy] at hv
      subst hv
      simp at hx
    · exact absurd hv (by simp)
  | jstr s =>
    simp only [JVal.pyIterE] at h
    injection h with h
    subst h
    intro x hx
    simp at hx
    obtain ⟨c, _, rfl⟩ := hx
    exact Or.inr (Or.inr ⟨_, rfl⟩)
  | jobj fs =>
    simp only [JVal.pyIterE] at h
    injection h with h
    subst h
    intro x hx
    simp at hx
    obtain ⟨k, v, _, rfl⟩ := hx
    exact Or.inr (Or.inr ⟨_, rfl⟩)
  | jnull => simp [JVal.pyIterE] at h
  | jbool b => simp [JVal.pyIterE] at h
  | jnum n => simp [JVal.pyIterE] at h

theorem tryStep_good {α : Type} {r : JVal} {acc out : List JVal} {x : Except Unit α}
    {f : α → Except (List JVal) (List JVal)}
    (hacc : AccGood r acc)
    (hcont : ∀ a, x = .ok a → (f a = .ok out ∨ f a = .error out) → AccGood r out) :
    (tryStep acc x f = .ok out ∨ tryStep acc x f = .error out) → AccGood r out := by
  intro hout
  cases hx : x with
  | error e =>
    subst hx
    rcases hout with h | h <;> simp only [tryStep] at h
    · exact absurd h (by simp)
    · injection h with h
      subst h
      exact hacc
  | ok a =>
    subst hx
    rcases hout with h | h <;> simp only [tryStep] at h
    · exact hcont a rfl (Or.inl h)
    · exact hcont a rfl (Or.inr h)

theorem accGood_append {r : JVal} {acc : List JVal} {u : JVal}
    (hacc : AccGood r acc) (hu : GoodUrl r u) : AccGood r (acc ++ [u]) := by
  intro w hw
  rcases List.mem_append.mp hw with h | h
  · exact hacc w h
  · simp at h
    subst h
    exact hu

theorem accGood_append_if {r : JVal} {acc : List JVal} {u : JVal}
    (hacc : AccGood r acc) (hu : u.truthy = true → SubVal u r) :
    AccGood r (if u.truthy then acc ++ [u] else acc) := by
  split_ifs with ht
  · exact accGood_append hacc ⟨ht, hu ht⟩
  · exact hacc

theorem scanProgUrls_good {r : JVal} :
    ∀ (items acc out : List JVal), (∀ x ∈ items, ReachOk r x) → AccGood r acc →
      (scanProgUrls acc items = .ok out ∨ scanProgUrls acc items = .error out) →
      AccGood r out := by
  intro items
  induction items with
  | nil =>
    intro acc out _ hacc hout
    rcases hout with h | h <;> rw [scanProgUrls] at h <;> simp at h
    subst h
    exact hacc
  | cons p rest ih =>
    intro acc out hitems hacc hout
    rw [scanProgUrls] at hout
    refine tryStep_good hacc ?_ hout
    intro pu hg hout'
    have hpu := tryGet_reach (hitems p (by simp)) hg
    exact ih _ out (fun x hx => hitems x (by simp [hx]))
      (accGood_append_if hacc hpu.2) hout'

theorem scanImages_good {r : JVal} :
    ∀ (items acc out : List JVal), (∀ x ∈ items, ReachOk r x) → AccGood r acc →
      (scanImages acc items = .ok out ∨ scanImages acc items = .error out) →
      AccGood r out := by
  intro items
  induction items with
  | nil =>
    intro acc out _ hacc hout
    rcases hout with h | h <;> rw [scanImages] at h <;> simp at h
    subst h
    exact hacc
  | cons img rest ih =>
    intro acc out hitems hacc hout
    rw [scanImages] at hout
    refine tryStep_good hacc ?_ hout
    intro url hg hout'
    have hurl := tryGetOr_reach (hitems img (by simp)) hg
    exact ih _ out (fun x hx => hitems x (by simp [hx]))
      (accGood_append_if hacc hurl.2) hout'

theorem scanVideos_good {r : JVal} :
    ∀ (items acc out : List JVal), (∀ x ∈ items, ReachOk r x) → AccGood r acc →
      (scanVideos acc items = .ok out ∨ scanVideos acc items = .error out) →
      AccGood r out := by
  intro items
  induction items with
  | nil =>
    intro acc out _ hacc hout
    rcases hout with h | h <;> rw [scanVideos] at h <;> simp at h
    subst h
    exact hacc
  | cons video rest ih =>
    intro acc out hitems hacc hout
    rw [scanVideos] at hout
    refine tryStep_good hacc ?_ hout
    intro uri hg hout1
    have hvideo := hitems video (by simp)
    have huri := tryGetOr_reach hvideo hg
    have hacc1 : AccGood r (if uri.truthy then acc ++ [uri] else acc) :=
      accGood_append_if hacc huri.2
    refine tryStep_good hacc1 ?_ hout1
    intro dv hdv hout2
    have hdel : ReachOk r (dv.pyOr (.jobj [])) :=
      pyOr_reach (tryGet_reach hvideo hdv).1 (reachOk_of_falsy rfl)
    refine tryStep_good hacc1 ?_ hout2
    intro prog hprog hout3
    have hpr : ReachOk r prog := (tryGetDef_reach hdel hprog rfl).1
    refine tryStep_good hacc1 ?_ hout3
    intro progItems hpi hout4
    have hpis := pyIterE_reach hpr hpi
    rcases hsp : scanProgUrls (if uri.truthy then acc ++ [uri] else acc) progItems
      with e | acc2
    · rcases hout4 with h | h <;> rw [hsp] at h <;> simp at h
      subst h
      exact scanProgUrls_good progItems _ _ hpis hacc1 (Or.inr hsp)
    · rw [hsp] at hout4
      have hacc2 : AccGood r acc2 :=
        scanProgUrls_good progItems _ acc2 hpis hacc1 (Or.inl hsp)
      exact ih _ out (fun x hx => hitems x (by simp [hx])) hacc2 hout4

theorem accGood_nil {r : JVal} : AccGood r [] := by
  intro u hu
  simp at hu

theorem scanVideos_then_edges_good {r : JVal} (rest : List JVal)
    (hrest : ∀ acc out, AccGood r acc →
      (scanEdges acc rest = .ok out ∨ scanEdges acc rest = .error out) →
      AccGood r out) :
    ∀ (vids acc1 out : List JVal), (∀ x ∈ vids, ReachOk r x) → AccGood r acc1 →
      ((match scanVideos acc1 vids with
        | .error e => (.error e : Except (List JVal) (List JVal))
        | .ok acc2 => scanEdges acc2 rest) = .ok out ∨
       (match scanVideos acc1 vids with
        | .error e => (.error e : Except (List JVal) (List JVal))
        | .ok acc2 => scanEdges acc2 rest) = .error out) →
      AccGood r out := by
  intro vids acc1 out hvids hacc1 hout
  rcases hsv : scanVideos acc1 vids with e | acc2
  · rcases hout with h | h <;> rw [hsv] at h <;> simp at h
    subst h
    exact scanVideos_good vids _ _ hvids hacc1 (Or.inr hsv)
  · rw [hsv] at hout
    exact hrest acc2 out (scanVideos_good vids _ _ hvids hacc1 (Or.inl hsv)) hout

theorem scanEdges_good {r : JVal} :
    ∀ (items acc out : List JVal), (∀ x ∈ items, ReachOk r x) → AccGood r acc →
      (scanEdges acc items = .ok out ∨ scanEdges acc items = .error out) →
      AccGood r out := by
  intro items
  induction items with
  | nil =>
    intro acc out _ hacc hout
    rcases hout with h | h <;> rw [scanEdges] at h <;> simp at h
    subst h
    exact hacc
  | cons edge rest ih =>
    intro acc out hitems hacc hout
    have hrest : ∀ acc out, AccGood r acc →
        (scanEdges acc rest = .ok out ∨ scanEdges acc rest = .error out) →
        AccGood r out :=
      fun acc out hacc h => ih acc out (fun x hx => hitems x (by simp [hx])) hacc h
    rw [scanEdges] at hout
    refine tryStep_good hacc ?_ hout
    intro node hnode hout1
    have hn := (tryGetDef_reach (hitems edge (by simp)) hnode rfl).1
    refine tryStep_good hacc ?_ hout1
    intro content hcontent hout2
    have hc := (tryGetDef_reach hn hcontent rfl).1
    refine tryStep_good hacc ?_ hout2
    intro im him hout3
    have him' : ReachOk r (im.pyOr (.jobj [])) :=
      pyOr_reach (tryGet_reach hc him).1 (reachOk_of_falsy rfl)
    refine tryStep_good hacc ?_ hout3
    intro imgsOuter hio hout4
    have hio' := (tryGetDef_reach him' hio rfl).1
    refine tryStep_good hacc ?_ hout4
    intro imgsVal hivl hout5
    have hivl' := (tryGetDef_reach hio' hivl rfl).1
    refine tryStep_good hacc ?_ hout5
    intro imgs hims hout6
    have himgs := pyIterE_reach hivl' hims
    rcases hsi : scanImages acc imgs with e | acc1
    · rcases hout6 with h | h <;> rw [hsi] at h <;> simp at h
      subst h
      exact scanImages_good imgs _ _ himgs hacc (Or.inr hsi)
    · rw [hsi] at hout6
      have hacc1 : AccGood r acc1 := scanImages_good imgs _ _ himgs hacc (Or.inl hsi)
      refine tryStep_good hacc1 ?_ hout6
      intro iv hivv hout7
      have hiv2 : ReachOk r (iv.pyOr (.jobj [])) :=
        pyOr_reach (tryGet_reach hc hivv).1 (reachOk_of_falsy rfl)
      refine tryStep_good hacc1 ?_ hout7
      intro vidsOuter hvo hout8
      have hvo' := (tryGetDef_reach hiv2 hvo rfl).1
      refine tryStep_good hacc1 ?_ hout8
      intro vidsVal hvv hout9
      have hvv' := (tryGetDef_reach hvo' hvv rfl).1
      by_cases htv : vidsVal.truthy = true
      · rw [if_neg (by simp [htv])] at hout9
        refine tryStep_good hacc1 ?_ hout9
        intro vids hvi hout10
        exact scanVideos_then_edges_good rest hrest vids acc1 out
          (pyIterE_reach hvv' hvi) hacc1 hout10
      · rw [if_pos (by simp [htv])] at hout9
        refine tryStep_good hacc1 ?_ hout9
        intro vs hvs hout10
        by_cases hvst : vs.truthy = true
        · rw [if_pos hvst] at hout10
          refine tryStep_good hacc1 ?_ hout10
          intro vids hvi hout11
          have hvids : ∀ x ∈ vids, ReachOk r x := by
            have hvsr : SubVal vs r := (tryGet_reach hiv2 hvs).2 hvst
            have : vids = [vs] := by
              simp [JVal.pyIterE] at hvi
              exact hvi.symm
            subst this
            intro x hx
            simp at hx
            subst hx
            exact Or.inl hvsr
          exact scanVideos_then_edges_good rest hrest vids acc1 out hvids hacc1 hout11
        · rw [if_neg hvst] at hout10
          refine tryStep_good hacc1 ?_ hout10
          intro vids hvi hout11
          exact scanVideos_then_edges_good rest hrest vids acc1 out
            (pyIterE_reach hvv' hvi) hacc1 hout11

theorem extractStage4_good {r : JVal} (m : JVal) (hm : ReachOk r m)
    (out : List JVal)
    (hout : extractStage4 m = .ok out ∨ extractStage4 m = .error out) :
    AccGood r out := by
  unfold extractStage4 at hout
  refine tryStep_good accGood_nil ?_ hout
  intro edges hed hout1
  exact scanEdges_good edges [] out (pyIterE_reach hm hed) accGood_nil hout1

theorem keysLoop_good {r : JVal} (data m : JVal) (hd : ReachOk r data)
    (hm : ReachOk r m) :
    ∀ (keys : List String) (out : List JVal),
      (keysLoop data m keys = .ok out ∨ keysLoop data m keys = .error out) →
      AccGood r out := by
  intro keys
  induction keys with
  | nil =>
    intro out hout
    rw [keysLoop] at hout
    exact extractStage4_good m hm out hout
  | cons key rest ih =>
    intro out hout
    rw [keysLoop] at hout
    by_cases hk : pyInStr "message" (pyLower key) = true
    · rw [if_pos hk] at hout
      refine tryStep_good accGood_nil ?_ hout
      intro dk hdk hout1
      have hdk' := (trySubscript_reach hd hdk).1
      refine tryStep_good accGood_nil ?_ hout1
      intro v2 h2 hout2
      have hv2 := (tryGetDef_reach hdk' h2 rfl).1
      refine tryStep_good accGood_nil ?_ hout2
      intro msg_data h3 hout3
      have hmd := (tryGetDef_reach hv2 h3 rfl).1
      by_cases hmt : msg_data.truthy = true
      · rw [if_pos hmt] at hout3
        exact extractStage4_good msg_data hmd out hout3
      · rw [if_neg hmt] at hout3
        exact ih out hout3
    · rw [if_neg hk] at hout
      exact ih out hout

theorem extractStage3_good {r : JVal} (data m : JVal) (hd : ReachOk r data)
    (hm : ReachOk r m) (out : List JVal)
    (hout : extractStage3 data m = .ok out ∨ extractStage3 data m = .error out) :
    AccGood r out := by
  unfold extractStage3 at hout
  by_cases ht : m.truthy = true
  · rw [if_neg (by simp [ht])] at hout
    exact extractStage4_good m hm out hout
  · rw [if_pos (by simp [ht])] at hout
    refine tryStep_good accGood_nil ?_ hout
    intro keys hkeys hout1
    exact keysLoop_good data m hd hm keys out hout1

theorem selectViaKey_good {r : JVal} (data : JVal) (key : String)
    (hd : ReachOk r data)
    (k : JVal → Except (List JVal) (List JVal))
    (hk : ∀ m out, ReachOk r m → (k m = .ok out ∨ k m = .error out) →
      AccGood r out) :
    ∀ out, (selectViaKey data key k = .ok out ∨
            selectViaKey data key k = .error out) → AccGood r out := by
  intro out hout
  unfold selectViaKey at hout
  refine tryStep_good accGood_nil ?_ hout
  intro v1 h1 hout1
  have hv1 := (tryGetDef_reach hd h1 rfl).1
  refine tryStep_good accGood_nil ?_ hout1
  intro v2 h2 hout2
  have hv2 := (tryGetDef_reach hv1 h2 rfl).1
  refine tryStep_good accGood_nil ?_ hout2
  intro m h3 hout3
  exact hk m out (tryGetDef_reach hv2 h3 rfl).1 hout3

theorem extractStage2c_good {r : JVal} (data m : JVal) (hd : ReachOk r data)
    (hm : ReachOk r m) (out : List JVal)
    (hout : extractStage2c data m = .ok out ∨ extractStage2c data m = .error out) :
    AccGood r out := by
  unfold extractStage2c at hout
  by_cases ht : m.truthy = true
  · rw [if_neg (by simp [ht])] at hout
    exact extractStage3_good data m hd hm out hout
  · rw [if_pos (by simp [ht])] at hout
    refine tryStep_good accGood_nil ?_ hout
    intro h hin hout1
    by_cases hb : h = true
    · subst hb
      rw [if_pos rfl] at hout1
      exact selectViaKey_good data _ hd _
        (fun m out hm h => extractStage3_good data m hd hm out h) out hout1
    · rw [if_neg hb] at hout1
      exact extractStage3_good data m hd hm out hout1

theorem extractStage2b_good {r : JVal} (data m : JVal) (hd : ReachOk r data)
    (hm : ReachOk r m) (out : List JVal)
    (hout : extractStage2b data m = .ok out ∨ extractStage2b data m = .error out) :
    AccGood r out := by
  unfold extractStage2b at hout
  by_cases ht : m.truthy = true
  · rw [if_neg (by simp [ht])] at hout
    exact extractStage2c_good data m hd hm out hout
  · rw [if_pos (by simp [ht])] at hout
    refine tryStep_good accGood_nil ?_ hout
    intro h hin hout1
    by_cases hb : h = true
    · subst hb
      rw [if_pos rfl] at hout1
      exact selectViaKey_good data _ hd _
        (fun m out hm h => extractStage2c_good data m hd hm out h) out hout1
    · rw [if_neg hb] at hout1
      exact extractStage2c_good data m hd hm out hout1

theorem extractScan_good {r data : JVal} (hd : ReachOk r data)
    (out : List JVal)
    (hout : extractScan data = .ok out ∨ extractScan data = .error out) :
    AccGood r out := by
  unfold extractScan at hout
  refine tryStep_good accGood_nil ?_ hout
  intro h hin hout1
  by_cases hb : h = true
  · subst hb
    rw [if_pos rfl] at hout1
    exact selectViaKey_good data _ hd _
      (fun m out hm h => extractStage2b_good data m hd hm out h) out hout1
  · rw [if_neg hb] at hout1
    exact extractStage2b_good data (.jarr []) hd (reachOk_of_falsy rfl) out hout1

theorem trySubscript_subval {r v u : JVal} {k : String} (hv : SubVal v r)
    (h : trySubscript v k = .ok u) : SubVal u r := by
  cases v with
  | jobj fs =>
    simp only [trySubscript] at h
    rcases hfind : fs.find? (fun p => p.1 = k) with _ | kv
    · rw [hfind] at h
      simp at h
    · rw [hfind] at h
      simp at h
      obtain ⟨k', v'⟩ := kv
      have hmem := List.mem_of_find?_eq_some hfind
      subst h
      exact (subval_of_entry hmem).trans hv
  | jnull => simp [trySubscript] at h
  | jbool b => simp [trySubscript] at h
  | jnum n => simp [trySubscript] at h
  | jstr s => simp [trySubscript] at h
  | jarr xs => simp [trySubscript] at h

theorem trySubscript_eq_tryGet_of_truthy {v u : JVal} {k : String}
    (hg : v.tryGet k = .ok u) (ht : u.truthy = true) :
    trySubscript v k = .ok u := by
  cases v with
  | jobj fs =>
    simp only [JVal.tryGet] at hg
    injection hg with hg
    rcases hfind : fs.find? (fun p => p.1 = k) with _ | kv
    · rw [hfind] at hg
      simp at hg
      subst hg
      simp [JVal.truthy] at ht
    · rw [hfind] at hg
      simp at hg
      simp [trySubscript, hfind, hg]
  | jnull => simp [JVal.tryGet] at hg
  | jbool b => simp [JVal.tryGet] at hg
  | jnum n => simp [JVal.tryGet] at hg
  | jstr s => simp [JVal.tryGet] at hg
  | jarr xs => simp [JVal.tryGet] at hg

theorem partsLoop_subval {r : JVal} :
    ∀ (parts : List JVal), (∀ x ∈ parts, ReachOk r x) →
      ∀ d, partsLoop parts = .ok (some d) → SubVal d r := by
  intro parts
  induction parts with
  | nil =>
    intro _ d h
    rw [partsLoop] at h
    simp at h
  | cons part rest ih =>
    intro hitems d h
    rw [partsLoop] at h
    rcases hg : part.tryGet "data" with e | d0
    · rw [hg] at h
      simp at h
    · rw [hg] at h
      have h2 : (if d0.truthy = true then
          (match trySubscript part "data" with
           | .error _ => (.error () : Except Unit (Option JVal))
           | .ok v => .ok (some v))
          else partsLoop rest) = .ok (some d) := h
      by_cases ht : d0.truthy = true
      · rw [if_pos ht] at h2
        rw [trySubscript_eq_tryGet_of_truthy hg ht] at h2
        simp at h2
        subst h2
        exact (tryGet_reach (hitems part (by simp)) hg).2 ht
      · rw [if_neg ht] at h2
        exact ih (fun x hx => hitems x (by simp [hx])) d h2

theorem dataSelectionElif_subval {r d : JVal}
    (h : dataSelectionElif r = .ok (some d)) : SubVal d r := by
  unfold dataSelectionElif at h
  rcases hin : pyInOp "parts" r with e | hasParts
  · rw [hin] at h
    simp at h
  · rw [hin] at h
    have h2 : (if hasParts = true then
        (match trySubscript r "parts" with
         | .error _ => (.error () : Except Unit (Option JVal))
         | .ok pv =>
           match pv.pyIterE with
           | .error _ => .error ()
           | .ok parts => partsLoop parts)
        else .ok (some r)) = .ok (some d) := h
    by_cases hb : hasParts = true
    · rw [if_pos hb] at h2
      rcases hs : trySubscript r "parts" with e | pv
      · rw [hs] at h2
        simp at h2
      · rw [hs] at h2
        have h3 : (match pv.pyIterE with
            | .error _ => (.error () : Except Unit (Option JVal))
            | .ok parts => partsLoop parts) = .ok (some d) := h2
        rcases hi : pv.pyIterE with e | parts
        · rw [hi] at h3
          simp at h3
        · rw [hi] at h3
          have hpv : SubVal pv r := trySubscript_subval (SubVal.refl r) hs
          exact partsLoop_subval parts (pyIterE_reach (Or.inl hpv) hi) d h3
    · rw [if_neg hb] at h2
      simp at h2
      subst h2
      exact SubVal.refl r

theorem dataSelection_subval {r d : JVal}
    (h : dataSelection r = .ok (some d)) : SubVal d r := by
  unfold dataSelection at h
  rcases hin : pyInOp "data" r with e | hasData
  · rw [hin] at h
    simp at h
  · rw [hin] at h
    have h2 : (if hasData = true then
        (match trySubscript r "data" with
         | .error _ => (.error () : Except Unit (Option JVal))
         | .ok d0 =>
           if d0.isDict then .ok (some d0) else dataSelectionElif r)
        else dataSelectionElif r) = .ok (some d) := h
    by_cases hb : hasData = true
    · rw [if_pos hb] at h2
      rcases hs : trySubscript r "data" with e | d0
      · rw [hs] at h2
        simp at h2
      · rw [hs] at h2
        have h3 : (if d0.isDict = true then (.ok (some d0) : Except Unit (Option JVal))
            else dataSelectionElif r) = .ok (some d) := h2
        by_cases hdd : d0.isDict = true
        · rw [if_pos hdd] at h3
          simp at h3
          subst h3
          exact trySubscript_subval (SubVal.refl r) hs
        · rw [if_neg hdd] at h3
          exact dataSelectionElif_subval h3
    · rw [if_neg hb] at h2
      exact dataSelectionElif_subval h2

theorem extract_media_urls_raw_good {r : JVal} {urls : List JVal}
    (h : extract_media_urls_raw r = .ok urls) : AccGood r urls := by
  unfold extract_media_urls_raw at h
  rcases hds : dataSelection r with e | od
  · rw [hds] at h
    simp at h
  · rw [hds] at h
    cases od with
    | none =>
      simp at h
      subst h
      exact accGood_nil
    | some data =>
      have h2 : (match extractScan data with
          | .ok u => (.ok u : Except Unit (List JVal))
          | .error u => .ok u) = .ok urls := h
      rcases hes : extractScan data with e | urls0 <;> rw [hes] at h2 <;>
        simp at h2 <;> subst h2
      · exact extractScan_good (Or.inl (dataSelection_subval hds)) _ (Or.inr hes)
      · exact extractScan_good (Or.inl (dataSelection_subval hds)) _ (Or.inl hes)

theorem extract_media_urls_eq_dedup {r : JVal} {raw urls : List JVal}
    (hraw : extract_media_urls_raw r = .ok raw)
    (h : extract_media_urls r = .ok urls) : urls = dedupFirst raw := by
  unfold extract_media_urls at h
  unfold extract_media_urls_raw at hraw
  rcases hds : dataSelection r with e | od <;> rw [hds] at h hraw
  · simp at h
  · cases od with
    | none =>
      simp at h hraw
      subst h
      subst hraw
      rfl
    | some data =>
      have h2 : (match extractScan data with
          | .ok u => (.ok (dedupFirst u) : Except Unit (List JVal))
          | .error u => .ok (dedupFirst u)) = .ok urls := h
      have hraw2 : (match extractScan data with
          | .ok u => (.ok u : Except Unit (List JVal))
          | .error u => .ok u) = .ok raw := hraw
      rcases hes : extractScan data with e | urls0 <;> rw [hes] at h2 hraw2 <;>
        simp at h2 hraw2 <;> subst h2 <;> subst hraw2 <;> rfl

theorem clientScanEdges_good {r : JVal} :
    ∀ (items acc out : List JVal), (∀ x ∈ items, ReachOk r x) → AccGood r acc →
      (clientScanEdges acc items = .ok out ∨ clientScanEdges acc items = .error out) →
      AccGood r out := by
  intro items
  induction items with
  | nil =>
    intro acc out _ hacc hout
    rcases hout with h | h <;> rw [clientScanEdges] at h <;> simp at h
    subst h
    exact hacc
  | cons edge rest ih =>
    intro acc out hitems hacc hout
    rw [clientScanEdges] at hout
    refine tryStep_good hacc ?_ hout
    intro node hnode hout1
    have hn := (tryGetDef_reach (hitems edge (by simp)) hnode rfl).1
    refine tryStep_good hacc ?_ hout1
    intro content hcontent hout2
    have hc := (tryGetDef_reach hn hcontent rfl).1
    refine tryStep_good hacc ?_ hout2
    intro iv hiv hout3
    have hiv2 : ReachOk r (iv.pyOr (.jobj [])) :=
      pyOr_reach (tryGet_reach hc hiv).1 (reachOk_of_falsy rfl)
    refine tryStep_good hacc ?_ hout3
    intro vo hvo hout4
    have hvo' := (tryGetDef_reach hiv2 hvo rfl).1
    refine tryStep_good hacc ?_ hout4
    intro vidsVal hvv hout5
    have hvv' := (tryGetDef_reach hvo' hvv rfl).1
    refine tryStep_good hacc ?_ hout5
    intro vids hvi hout6
    have hvids := pyIterE_reach hvv' hvi
    rcases hsv : scanVideos acc vids with e | acc1
    · rcases hout6 with h | h <;> rw [hsv] at h <;> simp at h
      subst h
      exact scanVideos_good vids _ _ hvids hacc (Or.inr hsv)
    · rw [hsv] at hout6
      have hacc1 : AccGood r acc1 := scanVideos_good vids _ _ hvids hacc (Or.inl hsv)
      refine tryStep_good hacc1 ?_ hout6
      intro sv hsvv hout7
      have hsv' : ReachOk r (sv.pyOr (.jobj [])) :=
        pyOr_reach (tryGet_reach hiv2 hsvv).1 (reachOk_of_falsy rfl)
      by_cases hdict : (sv.pyOr (.jobj [])).isDict = true
      · rw [if_pos hdict] at hout7
        refine tryStep_good hacc1 ?_ hout7
        intro uri hguri hout8
        have huri := tryGetOr_reach hsv' hguri
        have hacc2 : AccGood r (if uri.truthy then acc1 ++ [uri] else acc1) :=
          accGood_append_if hacc1 huri.2
        refine tryStep_good hacc2 ?_ hout8
        intro dv hdv hout9
        have hdel : ReachOk r (dv.pyOr (.jobj [])) :=
          pyOr_reach (tryGet_reach hsv' hdv).1 (reachOk_of_falsy rfl)
        refine tryStep_good hacc2 ?_ hout9
        intro prog hprog hout10
        have hpr := (tryGetDef_reach hdel hprog rfl).1
        refine tryStep_good hacc2 ?_ hout10
        intro progItems hpi hout11
        have hpis := pyIterE_reach hpr hpi
        rcases hsp : scanProgUrls (if uri.truthy then acc1 ++ [uri] else acc1)
            progItems with e | acc3
        · rcases hout11 with h | h <;> rw [hsp] at h <;> simp at h
          subst h
          exact scanProgUrls_good progItems _ _ hpis hacc2 (Or.inr hsp)
        · rw [hsp] at hout11
          exact ih _ out (fun x hx => hitems x (by simp [hx]))
            (scanProgUrls_good progItems _ _ hpis hacc2 (Or.inl hsp)) hout11
      · rw [if_neg hdict] at hout7
        exact ih _ out (fun x hx => hitems x (by simp [hx])) hacc1 hout7

theorem client_post_scan_good {r : JVal} {urls : List JVal} (fetch_post : JVal)
    (hfp : ReachOk r fetch_post) (h : client_post_scan fetch_post = .ok urls) :
    AccGood r urls := by
  unfold client_post_scan at h
  rcases hm1 : fetch_post.tryGetDef "messages" (.jobj []) with e | v2
  · rw [hm1] at h
    simp at h
  · rw [hm1] at h
    have hv2 := (tryGetDef_reach hfp hm1 rfl).1
    have h3 : (match v2.tryGetDef "edges" (.jarr []) with
        | .error _ => (.error () : Except Unit (List JVal))
        | .ok m =>
          match m.pyIterE with
          | .error _ => .error ()
          | .ok edges =>
            match clientScanEdges [] edges with
            | .error _ => .error ()
            | .ok u => .ok u) = .ok urls := h
    rcases hm2 : v2.tryGetDef "edges" (.jarr []) with e | m
    · rw [hm2] at h3
      simp at h3
    · rw [hm2] at h3
      have hm := (tryGetDef_reach hv2 hm2 rfl).1
      have h4 : (match m.pyIterE with
          | .error _ => (.error () : Except Unit (List JVal))
          | .ok edges =>
            match clientScanEdges [] edges with
            | .error _ => .error ()
            | .ok u => .ok u) = .ok urls := h3
      rcases hm3 : m.pyIterE with e | edges
      · rw [hm3] at h4
        simp at h4
      · rw [hm3] at h4
        have hedges := pyIterE_reach hm hm3
        have h5 : (match clientScanEdges [] edges with
            | .error _ => (.error () : Except Unit (List JVal))
            | .ok u => .ok u) = .ok urls := h4
        rcases hm4 : clientScanEdges [] edges with e | u
        · rw [hm4] at h5
          simp at h5
        · rw [hm4] at h5
          simp at h5
          subst h5
          exact clientScanEdges_good edges [] u hedges accGood_nil (Or.inl hm4)

theorem client_fetch_scan_good {r : JVal} {urls : List JVal}
    (h : client_fetch_scan r = .ok urls) : AccGood r urls := by
  unfold client_fetch_scan at h
  rcases hd : r.tryGetDef "data" (.jobj []) with e | data
  · rw [hd] at h
    simp at h
  · rw [hd] at h
    have hdata := (tryGetDef_reach (Or.inl (SubVal.refl r)) hd rfl).1
    have h1 : (match data.tryGet "xfb_genai_fetch_post" with
        | .error _ => (.error () : Except Unit (List JVal))
        | .ok a =>
          if a.truthy then client_post_scan a
          else
            match data.tryGet "xab_abra__xfb_genai_fetch_post" with
            | .error _ => .error ()
            | .ok b => client_post_scan (b.pyOr (.jobj []))) = .ok urls := h
    rcases hga : data.tryGet "xfb_genai_fetch_post" with e | a
    · rw [hga] at h1
      simp at h1
    · rw [hga] at h1
      have ha := (tryGet_reach hdata hga).1
      have h2 : (if a.truthy = true then client_post_scan a
          else
            match data.tryGet "xab_abra__xfb_genai_fetch_post" with
            | .error _ => (.error () : Except Unit (List JVal))
            | .ok b => client_post_scan (b.pyOr (.jobj []))) = .ok urls := h1
      by_cases hat : a.truthy = true
      · rw [if_pos hat] at h2
        exact client_post_scan_good a ha h2
      · rw [if_neg hat] at h2
        rcases hgb : data.tryGet "xab_abra__xfb_genai_fetch_post" with e | b
        · rw [hgb] at h2
          simp at h2
        · rw [hgb] at h2
          have hb : ReachOk r (b.pyOr (.jobj [])) :=
            pyOr_reach (tryGet_reach hdata hgb).1 (reachOk_of_falsy rfl)
          exact client_post_scan_good (b.pyOr (.jobj [])) hb h2

theorem client_fetch_eq_dedup {r : JVal} {raw urls : List JVal}
    (hraw : client_fetch_scan r = .ok raw)
    (h : extract_video_urls_from_fetch_response r = .ok urls) :
    urls = dedupFirst raw := by
  unfold extract_video_urls_from_fetch_response at h
  rw [hraw] at h
  simp at h
  exact h.symm

/-- C10: each media-URL extraction function
(`extract_media_urls` and `extract_video_urls_from_fetch_response`) returns a
list with no duplicate URLs, whose order follows the first occurrence of each
URL in the traversal of the response (the raw appended sequence `raw`), and
every element of the result is a non-null (truthy) URL value found in the
response. -/
theorem media_url_extraction_spec (r1 r2 : JVal)
    (raw1 urls1 raw2 urls2 : List JVal)
    (h1r : extract_media_urls_raw r1 = .ok raw1)
    (h1 : extract_media_urls r1 = .ok urls1)
    (h2r : client_fetch_scan r2 = .ok raw2)
    (h2 : extract_video_urls_from_fetch_response r2 = .ok urls2) :
    (urls1.Nodup ∧ List.Sublist urls1 raw1 ∧ (∀ u, u ∈ urls1 ↔ u ∈ raw1) ∧
     urls1.Pairwise (fun a b => raw1.indexOf a < raw1.indexOf b) ∧
     (∀ u ∈ urls1, u.truthy = true ∧ SubVal u r1)) ∧
    (urls2.Nodup ∧ List.Sublist urls2 raw2 ∧ (∀ u, u ∈ urls2 ↔ u ∈ raw2) ∧
     urls2.Pairwise (fun a b => raw2.indexOf a < raw2.indexOf b) ∧
     (∀ u ∈ urls2, u.truthy = true ∧ SubVal u r2)) := by
  have e1 : urls1 = keepFirsts [] raw1 := by
    rw [extract_media_urls_eq_dedup h1r h1, dedupFirst_eq_keepFirsts]
  have e2 : urls2 = keepFirsts [] raw2 := by
    rw [client_fetch_eq_dedup h2r h2, dedupFirst_eq_keepFirsts]
  have g1 := extract_media_urls_raw_good h1r
  have g2 := client_fetch_scan_good h2r
  subst e1
  subst e2
  refine ⟨⟨keepFirsts_nodup [] raw1, keepFirsts_sublist [] raw1, ?_,
      keepFirsts_pairwise_firstIdx [] raw1, ?_⟩,
    ⟨keepFirsts_nodup [] raw2, keepFirsts_sublist [] raw2, ?_,
      keepFirsts_pairwise_firstIdx [] raw2, ?_⟩⟩
  · intro u
    rw [mem_keepFirsts]
    simp
  · intro u hu
    exact g1 u ((mem_keepFirsts [] raw1).mp hu).1
  · intro u
    rw [mem_keepFirsts]
    simp
  · intro u hu
    exact g2 u ((mem_keepFirsts [] raw2).mp hu).1

/-- Witness for C10 at the sample responses: the image feed repeats
`http://a`, the video feed repeats `http://v`; both extractors deduplicate. -/
theorem media_url_extraction_spec_witness :
    extract_media_urls_raw sampleImagineResponse
      = .ok [.jstr "http://a", .jstr "http://a", .jstr "http://c"] ∧
    extract_media_urls sampleImagineResponse
      = .ok [.jstr "http://a", .jstr "http://c"] ∧
    client_fetch_scan sampleFetchResponse
      = .ok [.jstr "http://v", .jstr "http://v"] ∧
    extract_video_urls_from_fetch_response sampleFetchResponse
      = .ok [.jstr "http://v"] ∧
    (((([.jstr "http://a", .jstr "http://c"] : List JVal).Nodup ∧
       List.Sublist ([.jstr "http://a", .jstr "http://c"] : List JVal)
         ([.jstr "http://a", .jstr "http://a", .jstr "http://c"] : List JVal) ∧
       (∀ u, u ∈ ([.jstr "http://a", .jstr "http://c"] : List JVal) ↔
         u ∈ ([.jstr "http://a", .jstr "http://a", .jstr "http://c"] : List JVal)) ∧
       ([.jstr "http://a", .jstr "http://c"] : List JVal).Pairwise
         (fun a b => ([.jstr "http://a", .jstr "http://a", .jstr "http://c"] : List JVal).indexOf a <
           ([.jstr "http://a", .jstr "http://a", .jstr "http://c"] : List JVal).indexOf b) ∧
       (∀ u ∈ ([.jstr "http://a", .jstr "http://c"] : List JVal),
         u.truthy = true ∧ SubVal u sampleImagineResponse)) ∧
      (([.jstr "http://v"] : List JVal).Nodup ∧
       List.Sublist ([.jstr "http://v"] : List JVal)
         ([.jstr "http://v", .jstr "http://v"] : List JVal) ∧
       (∀ u, u ∈ ([.jstr "http://v"] : List JVal) ↔
         u ∈ ([.jstr "http://v", .jstr "http://v"] : List JVal)) ∧
       ([.jstr "http://v"] : List JVal).Pairwise
         (fun a b => ([.jstr "http://v", .jstr "http://v"] : List JVal).indexOf a <
           ([.jstr "http://v", .jstr "http://v"] : List JVal).indexOf b) ∧
       (∀ u ∈ ([.jstr "http://v"] : List JVal),
         u.truthy = true ∧ SubVal u sampleFetchResponse)))) :=
  ⟨rfl, rfl, rfl, rfl,
   media_url_extraction_spec sampleImagineResponse sampleFetchResponse
     [.jstr "http://a", .jstr "http://a", .jstr "http://c"]
     [.jstr "http://a", .jstr "http://c"]
     [.jstr "http://v", .jstr "http://v"] [.jstr "http://v"]
     rfl rfl rfl rfl⟩

/-- Witness for C8 at concrete times (interval 3600, last refresh 0,
current time 1) and a one-cookie cache. -/
theorem token_refresh_semantics_witness :
    (1 : ℚ) - (0 : ℚ) < 3600 ∧
    (refresh_if_needed 3600 ⟨[("datr", "x")], 0⟩ false 1 1 1 (.ok [("datr", "y")]) =
      (⟨[("datr", "x")], 0⟩, false) ∧
     refresh_if_needed 3600 ⟨[("datr", "x")], 0⟩ false 9999 9999 9999 .exn =
      (⟨[("datr", "x")], 0⟩, false) ∧
     refresh_if_needed 3600 ⟨[("datr", "x")], 0⟩ true 9999 9999 9999 .exn =
      (⟨[("datr", "x")], 0⟩, true) ∧
     (refresh_if_needed 3600 ⟨[("datr", "x")], 0⟩ true 9999 9999 9999 (.ok [("datr", "y")])).2 = false ∧
     (refresh_if_needed 3600 ⟨[("datr", "x")], 0⟩ false 9999 9999 9999 (.ok [("datr", "y")])).2 = false) :=
  ⟨by norm_num,
   token_refresh_semantics 3600 ⟨[("datr", "x")], 0⟩ 1 1 1 9999 9999 9999
     [("datr", "y")] (by norm_num)⟩

/-- One unfolding of the polling loop. -/
theorem pollLoopGo_succ (step : ℕ → PollStepOutcome) (ids : List String)
    (fuel attempt : ℕ) (last : List MediaItem) (q : List String) :
    pollLoopGo step ids (fuel + 1) attempt last q =
      match step attempt with
      | .keep => pollLoopGo step ids fuel (attempt + 1) last (q ++ [ids.headD ""])
      | .replaceNoCheck l => pollLoopGo step ids fuel (attempt + 1) l (q ++ [ids.headD ""])
      | .collected l =>
        if l.length = ids.length then ⟨l, attempt, true, q ++ [ids.headD ""]⟩
        else pollLoopGo step ids fuel (attempt + 1) l (q ++ [ids.headD ""]) := rfl

/-- Attempt accounting for the polling loop: without early exit the fuel is
fully consumed; with early exit the exit attempt lies in the window and the
result covers every requested id; one id is queried per executed attempt. -/
theorem pollLoopGo_bounds (step : ℕ → PollStepOutcome) (ids : List String) :
    ∀ (fuel attempt : ℕ) (last : List MediaItem) (q : List String), 1 ≤ attempt →
      ((pollLoopGo step ids fuel attempt last q).earlyExit = false →
        (pollLoopGo step ids fuel attempt last q).attemptsUsed + 1 = attempt + fuel) ∧
      ((pollLoopGo step ids fuel attempt last q).earlyExit = true →
        attempt ≤ (pollLoopGo step ids fuel attempt last q).attemptsUsed ∧
        (pollLoopGo step ids fuel attempt last q).attemptsUsed < attempt + fuel ∧
        (pollLoopGo step ids fuel attempt last q).result.length = ids.length) ∧
      (pollLoopGo step ids fuel attempt last q).queries.length + attempt =
        q.length + (pollLoopGo step ids fuel attempt last q).attemptsUsed + 1 := by
  intro fuel
  induction fuel with
  | zero =>
    intro attempt last q h1
    have hrun : pollLoopGo step ids 0 attempt last q = ⟨last, attempt - 1, false, q⟩ := rfl
    rw [hrun]
    dsimp only
    exact ⟨fun _ => by omega, fun he => by simp at he, by omega⟩
  | succ fuel ih =>
    intro attempt last q h1
    rcases hst : step attempt with _ | l | l
    · have hrun : pollLoopGo step ids (fuel + 1) attempt last q =
          pollLoopGo step ids fuel (attempt + 1) last (q ++ [ids.headD ""]) := by
        rw [pollLoopGo_succ, hst]
      rw [hrun]
      obtain ⟨c1, c2, c3⟩ := ih (attempt + 1) last (q ++ [ids.headD ""]) (by omega)
      simp only [List.length_append, List.length_cons, List.length_nil] at c3
      refine ⟨fun he => by have := c1 he; omega, fun he => ?_, by omega⟩
      obtain ⟨d1, d2, d3⟩ := c2 he
      exact ⟨by omega, by omega, d3⟩
    · have hrun : pollLoopGo step ids (fuel + 1) attempt last q =
          pollLoopGo step ids fuel (attempt + 1) l (q ++ [ids.headD ""]) := by
        rw [pollLoopGo_succ, hst]
      rw [hrun]
      obtain ⟨c1, c2, c3⟩ := ih (attempt + 1) l (q ++ [ids.headD ""]) (by omega)
      simp only [List.length_append, List.length_cons, List.length_nil] at c3
      refine ⟨fun he => by have := c1 he; omega, fun he => ?_, by omega⟩
      obtain ⟨d1, d2, d3⟩ := c2 he
      exact ⟨by omega, by omega, d3⟩
    · by_cases hlen : l.length = ids.length
      · have hrun : pollLoopGo step ids (fuel + 1) attempt last q =
            ⟨l, attempt, true, q ++ [ids.headD ""]⟩ := by
          rw [pollLoopGo_succ, hst]
          dsimp only
          rw [if_pos hlen]
        rw [hrun]
        dsimp only
        refine ⟨fun he => by simp at he, fun _ => ⟨le_refl attempt, by omega, hlen⟩, ?_⟩
        simp only [List.length_append, List.length_cons, List.length_nil]
        omega
      · have hrun : pollLoopGo step ids (fuel + 1) attempt last q =
            pollLoopGo step ids fuel (attempt + 1) l (q ++ [ids.headD ""]) := by
          rw [pollLoopGo_succ, hst]
          dsimp only
          rw [if_neg hlen]
        rw [hrun]
        obtain ⟨c1, c2, c3⟩ := ih (attempt + 1) l (q ++ [ids.headD ""]) (by omega)
        simp only [List.length_append, List.length_cons, List.length_nil] at c3
        refine ⟨fun he => by have := c1 he; omega, fun he => ?_, by omega⟩
        obtain ⟨d1, d2, d3⟩ := c2 he
        exact ⟨by omega, by omega, d3⟩

/-- The accounting at the loop entry point (attempt 1, no queries yet). -/
theorem pollLoopGo_top (step : ℕ → PollStepOutcome) (ids : List String)
    (maxA : ℕ) :
    (pollLoopGo step ids maxA 1 [] []).attemptsUsed ≤ maxA ∧
    ((pollLoopGo step ids maxA 1 [] []).earlyExit = false →
      (pollLoopGo step ids maxA 1 [] []).attemptsUsed = maxA) ∧
    ((pollLoopGo step ids maxA 1 [] []).earlyExit = true →
      (pollLoopGo step ids maxA 1 [] []).result.length = ids.length) ∧
    (pollLoopGo step ids maxA 1 [] []).queries.length =
      (pollLoopGo step ids maxA 1 [] []).attemptsUsed := by
  obtain ⟨c1, c2, c3⟩ := pollLoopGo_bounds step ids maxA 1 [] [] (le_refl 1)
  simp only [List.length_nil] at c3
  refine ⟨?_, fun he => by have := c1 he; omega, fun he => (c2 he).2.2, by omega⟩
  rcases Bool.eq_false_or_eq_true (pollLoopGo step ids maxA 1 [] []).earlyExit with he | he
  · have := c2 he
    omega
  · have := c1 he
    omega

/-- If every attempt in the remaining window scans to the same incomplete
count `K`, the loop never exits early, consumes all its fuel, and ends with
a `K`-length list (the entry list when the window is empty). -/
theorem pollLoopGo_constK (step : ℕ → PollStepOutcome) (ids : List String)
    (K : ℕ) (hK : K < ids.length) :
    ∀ (fuel attempt : ℕ) (last : List MediaItem) (q : List String), 1 ≤ attempt →
      (∀ n, attempt ≤ n → n < attempt + fuel →
        ∃ l, step n = .collected l ∧ l.length = K) →
      (pollLoopGo step ids fuel attempt last q).earlyExit = false ∧
      (pollLoopGo step ids fuel attempt last q).attemptsUsed + 1 = attempt + fuel ∧
      (1 ≤ fuel → (pollLoopGo step ids fuel attempt last q).result.length = K) ∧
      (fuel = 0 → (pollLoopGo step ids fuel attempt last q).result = last) := by
  intro fuel
  induction fuel with
  | zero =>
    intro attempt last q h1 _
    have hrun : pollLoopGo step ids 0 attempt last q = ⟨last, attempt - 1, false, q⟩ := rfl
    rw [hrun]
    dsimp only
    exact ⟨rfl, by omega, fun h => by omega, fun _ => rfl⟩
  | succ fuel ih =>
    intro attempt last q h1 hwin
    obtain ⟨l, hst, hlen⟩ := hwin attempt (le_refl attempt) (by omega)
    have hne : ¬(l.length = ids.length) := by omega
    have hrun : pollLoopGo step ids (fuel + 1) attempt last q =
        pollLoopGo step ids fuel (attempt + 1) l (q ++ [ids.headD ""]) := by
      rw [pollLoopGo_succ, hst]
      dsimp only
      rw [if_neg hne]
    rw [hrun]
    obtain ⟨e1, e2, e3, e4⟩ := ih (attempt + 1) l (q ++ [ids.headD ""]) (by omega)
      (fun n hn1 hn2 => hwin n (by omega) (by omega))
    refine ⟨e1, by omega, fun _ => ?_, fun h0 => by omega⟩
    rcases Nat.eq_zero_or_pos fuel with hf | hf
    · rw [e4 hf]
      exact hlen
    · exact e3 hf

/-- Through the ramp-up window: attempts before `A` collect at most `K`
ids, attempts from `A` on collect exactly `K`. With `K` equal to the
requested count the loop exits early by attempt `A`; with `K` smaller it
runs to exhaustion and still returns `K` items. -/
theorem pollLoopGo_phase1 (step : ℕ → PollStepOutcome) (ids : List String)
    (K A maxA : ℕ)
    (hscan : ∀ n, 1 ≤ n → n ≤ maxA →
      ∃ l, step n = .collected l ∧ l.length ≤ K ∧ (A ≤ n → l.length = K)) :
    ∀ (fuel attempt : ℕ) (last : List MediaItem) (q : List String),
      attempt + fuel = maxA + 1 → 1 ≤ attempt → attempt ≤ A → A ≤ maxA →
      (K = ids.length →
        (pollLoopGo step ids fuel attempt last q).earlyExit = true ∧
        (pollLoopGo step ids fuel attempt last q).attemptsUsed ≤ A ∧
        (pollLoopGo step ids fuel attempt last q).result.length = K) ∧
      (K < ids.length →
        (pollLoopGo step ids fuel attempt last q).earlyExit = false ∧
        (pollLoopGo step ids fuel attempt last q).attemptsUsed = maxA ∧
        (pollLoopGo step ids fuel attempt last q).result.length = K) := by
  intro fuel
  induction fuel with
  | zero =>
    intro attempt last q hfa h1 hA hAm
    exact absurd hfa (by omega)
  | succ fuel ih =>
    intro attempt last q hfa h1 hA hAm
    obtain ⟨l, hst, hle, hexact⟩ := hscan attempt h1 (by omega)
    by_cases hlen : l.length = ids.length
    · have hrun : pollLoopGo step ids (fuel + 1) attempt last q =
          ⟨l, attempt, true, q ++ [ids.headD ""]⟩ := by
        rw [pollLoopGo_succ, hst]
        dsimp only
        rw [if_pos hlen]
      rw [hrun]
      dsimp only
      constructor
      · intro hKN
        exact ⟨rfl, hA, by omega⟩
      · intro hKN
        exact absurd hlen (by omega)
    · have hrun : pollLoopGo step ids (fuel + 1) attempt last q =
          pollLoopGo step ids fuel (attempt + 1) l (q ++ [ids.headD ""]) := by
        rw [pollLoopGo_succ, hst]
        dsimp only
        rw [if_neg hlen]
      rw [hrun]
      by_cases hAa : attempt < A
      · exact ih (attempt + 1) l (q ++ [ids.headD ""]) (by omega) (by omega) (by omega) hAm
      · have hAe : A ≤ attempt := by omega
        have hlK : l.length = K := hexact hAe
        constructor
        · intro hKN
          exact absurd (by omega : l.length = ids.length) hlen
        · intro hKN
          obtain ⟨e1, e2, e3, e4⟩ :=
            pollLoopGo_constK step ids K hKN fuel (attempt + 1) l
              (q ++ [ids.headD ""]) (by omega)
              (fun n hn1 hn2 => by
                obtain ⟨l2, hst2, hle2, hex2⟩ := hscan n (by omega) (by omega)
                exact ⟨l2, hst2, hex2 (by omega)⟩)
          refine ⟨e1, by omega, ?_⟩
          rcases Nat.eq_zero_or_pos fuel with hf | hf
          · rw [e4 hf]
            exact hlK
          · exact e3 hf

/-- The top-level consequence of the phased window hypothesis, combined
with the unconditional attempt bound. -/
theorem pollLoopGo_phase_top (step : ℕ → PollStepOutcome) (ids : List String)
    (K A maxA : ℕ) (hA1 : 1 ≤ A) (hAm : A ≤ maxA)
    (hscan : ∀ n, 1 ≤ n → n ≤ maxA →
      ∃ l, step n = .collected l ∧ l.length ≤ K ∧ (A ≤ n → l.length = K)) :
    (K = ids.length →
      (pollLoopGo step ids maxA 1 [] []).earlyExit = true ∧
      (pollLoopGo step ids maxA 1 [] []).attemptsUsed ≤ A ∧
      (pollLoopGo step ids maxA 1 [] []).result.length = K) ∧
    (K < ids.length →
      (pollLoopGo step ids maxA 1 [] []).earlyExit = false ∧
      (pollLoopGo step ids maxA 1 [] []).attemptsUsed = maxA ∧
      (pollLoopGo step ids maxA 1 [] []).result.length = K) ∧
    (pollLoopGo step ids maxA 1 [] []).attemptsUsed ≤ maxA := by
  obtain ⟨h1, h2⟩ :=
    pollLoopGo_phase1 step ids K A maxA hscan maxA 1 [] [] (by omega)
      (le_refl 1) hA1 hAm
  exact ⟨h1, h2, (pollLoopGo_top step ids maxA).1⟩

/-- A non-empty id list enters the loop. -/
theorem isEmpty_false_of_ne_nil {α : Type} {l : List α} (h : l ≠ []) :
    l.isEmpty = false := by
  cases l with
  | nil => exact absurd rfl h
  | cons a t => rfl

/-- `fetch_video_urls_by_media_id` on a non-empty id list is the loop. -/
theorem fetch_video_urls_loop (fetch : ℕ → JVal) (ids : List String)
    (maxA : ℕ) (h : ids ≠ []) :
    fetch_video_urls_by_media_id fetch ids maxA =
      pollLoopGo (videoAttemptStep fetch ids) ids maxA 1 [] [] := by
  rw [fetch_video_urls_by_media_id, isEmpty_false_of_ne_nil h]
  rfl

/-- `fetch_image_urls_by_media_id` on a non-empty id list is the loop. -/
theorem fetch_image_urls_loop (fetch : ℕ → JVal) (ids : List String)
    (maxA : ℕ) (h : ids ≠ []) :
    fetch_image_urls_by_media_id fetch ids maxA =
      pollLoopGo (imageAttemptStep fetch ids) ids maxA 1 [] [] := by
  rw [fetch_image_urls_by_media_id, isEmpty_false_of_ne_nil h]
  rfl

/-- C7: per-attempt failures never abort media resolution. For every
provider behaviour — including attempts that raise mid-scan or return an
`error` dict, which the loops catch or skip and treat as not-ready — both
polling functions run to completion: they use at most `max_attempts`
attempts, perform one placeholder query per executed attempt (no attempt
aborts the run), end without early exit only by exhausting `max_attempts`,
and exit early only with every requested id resolved. -/
theorem poll_attempt_failures_do_not_abort (fetchV fetchI : ℕ → JVal)
    (vids iids : List String) (maxV maxI : ℕ)
    (hv : vids ≠ []) (hi : iids ≠ []) :
    ((fetch_video_urls_by_media_id fetchV vids maxV).attemptsUsed ≤ maxV ∧
     ((fetch_video_urls_by_media_id fetchV vids maxV).earlyExit = false →
       (fetch_video_urls_by_media_id fetchV vids maxV).attemptsUsed = maxV) ∧
     ((fetch_video_urls_by_media_id fetchV vids maxV).earlyExit = true →
       (fetch_video_urls_by_media_id fetchV vids maxV).result.length = vids.length) ∧
     (fetch_video_urls_by_media_id fetchV vids maxV).queries.length =
       (fetch_video_urls_by_media_id fetchV vids maxV).attemptsUsed) ∧
    ((fetch_image_urls_by_media_id fetchI iids maxI).attemptsUsed ≤ maxI ∧
     ((fetch_image_urls_by_media_id fetchI iids maxI).earlyExit = false →
       (fetch_image_urls_by_media_id fetchI iids maxI).attemptsUsed = maxI) ∧
     ((fetch_image_urls_by_media_id fetchI iids maxI).earlyExit = true →
       (fetch_image_urls_by_media_id fetchI iids maxI).result.length = iids.length) ∧
     (fetch_image_urls_by_media_id fetchI iids maxI).queries.length =
       (fetch_image_urls_by_media_id fetchI iids maxI).attemptsUsed) := by
  rw [fetch_video_urls_loop fetchV vids maxV hv, fetch_image_urls_loop fetchI iids maxI hi]
  exact ⟨pollLoopGo_top (videoAttemptStep fetchV vids) vids maxV,
         pollLoopGo_top (imageAttemptStep fetchI iids) iids maxI⟩

/-- Witness for C7: one requested id, providers that always resolve it,
two allowed attempts — the runs exit early at attempt 1 with the id
resolved, having queried once. -/
theorem poll_attempt_failures_do_not_abort_witness :
    ((["a"] : List String) ≠ [] ∧
     ((fetch_video_urls_by_media_id (fun _ => resolvedAOnlyFeed) ["a"] 2).attemptsUsed ≤ 2 ∧
      ((fetch_video_urls_by_media_id (fun _ => resolvedAOnlyFeed) ["a"] 2).earlyExit = false →
        (fetch_video_urls_by_media_id (fun _ => resolvedAOnlyFeed) ["a"] 2).attemptsUsed = 2) ∧
      ((fetch_video_urls_by_media_id (fun _ => resolvedAOnlyFeed) ["a"] 2).earlyExit = true →
        (fetch_video_urls_by_media_id (fun _ => resolvedAOnlyFeed) ["a"] 2).result.length =
          (["a"] : List String).length) ∧
      (fetch_video_urls_by_media_id (fun _ => resolvedAOnlyFeed) ["a"] 2).queries.length =
        (fetch_video_urls_by_media_id (fun _ => resolvedAOnlyFeed) ["a"] 2).attemptsUsed) ∧
     ((fetch_image_urls_by_media_id (fun _ => resolvedAOnlyImageFeed) ["a"] 2).attemptsUsed ≤ 2 ∧
      ((fetch_image_urls_by_media_id (fun _ => resolvedAOnlyImageFeed) ["a"] 2).earlyExit = false →
        (fetch_image_urls_by_media_id (fun _ => resolvedAOnlyImageFeed) ["a"] 2).attemptsUsed = 2) ∧
      ((fetch_image_urls_by_media_id (fun _ => resolvedAOnlyImageFeed) ["a"] 2).earlyExit = true →
        (fetch_image_urls_by_media_id (fun _ => resolvedAOnlyImageFeed) ["a"] 2).result.length =
          (["a"] : List String).length) ∧
      (fetch_image_urls_by_media_id (fun _ => resolvedAOnlyImageFeed) ["a"] 2).queries.length =
        (fetch_image_urls_by_media_id (fun _ => resolvedAOnlyImageFeed) ["a"] 2).attemptsUsed)) :=
  ⟨by decide,
   (poll_attempt_failures_do_not_abort (fun _ => resolvedAOnlyFeed)
     (fun _ => resolvedAOnlyImageFeed) ["a"] ["a"] 2 2 (by decide) (by decide)).1,
   (poll_attempt_failures_do_not_abort (fun _ => resolvedAOnlyFeed)
     (fun _ => resolvedAOnlyImageFeed) ["a"] ["a"] 2 2 (by decide) (by decide)).2⟩

/-- C1 counterexample: with ids `a, b` and a provider that resolves `a`
with a URL on every attempt (and never `b`), attempt 1's scan already
contains `a`, yet attempt 2 re-queries the placeholder (`queries` holds
`a` twice) and re-adds the item by rebuilding the list from scratch — the
never-revisit clause fails. The count accounting still holds: after both
attempts the run returns the single resolved item without early exit. -/
theorem video_poll_requeries_resolved_id :
    videoCollect ["a", "b"] resolvedAOnlyFeed =
      .ok [mkItem "a"
        (JVal.jobj [("id", JVal.jstr "a"), ("url", JVal.jstr "http://a.mp4")])
        (JVal.jstr "http://a.mp4") JVal.jnull] ∧
    (fetch_video_urls_by_media_id (fun _ => resolvedAOnlyFeed) ["a", "b"] 2).queries =
      ["a", "a"] ∧
    (fetch_video_urls_by_media_id (fun _ => resolvedAOnlyFeed) ["a", "b"] 2).attemptsUsed = 2 ∧
    (fetch_video_urls_by_media_id (fun _ => resolvedAOnlyFeed) ["a", "b"] 2).earlyExit = false ∧
    (fetch_video_urls_by_media_id (fun _ => resolvedAOnlyFeed) ["a", "b"] 2).result =
      [mkItem "a"
        (JVal.jobj [("id", JVal.jstr "a"), ("url", JVal.jstr "http://a.mp4")])
        (JVal.jstr "http://a.mp4") JVal.jnull] :=
  ⟨rfl, rfl, rfl, rfl, rfl⟩

/-- C1 (amended): for a placeholder set of size `N` where the provider's
scans collect at most `K` ids per attempt and exactly `K` ids with
non-null URLs from attempt `A` on (`1 ≤ A ≤ max_attempts`), both polling
functions return exactly `K` resolved items; with `K = N` the loop exits
early at or before attempt `A`, otherwise it runs all `max_attempts` and
surfaces the resolved subset; attempts never exceed `max_attempts`. (The
original never-revisit clause is dropped: each attempt re-queries the
first placeholder id and rebuilds the item list from scratch.) -/
theorem media_poll_count_and_termination (fetchV fetchI : ℕ → JVal)
    (vids iids : List String) (KV KI AV AI maxV maxI : ℕ)
    (hv : vids ≠ []) (hi : iids ≠ [])
    (hAV1 : 1 ≤ AV) (hAVm : AV ≤ maxV) (hAI1 : 1 ≤ AI) (hAIm : AI ≤ maxI)
    (hscanV : ∀ n, 1 ≤ n → n ≤ maxV →
      ∃ l, videoAttemptStep fetchV vids n = .collected l ∧
        l.length ≤ KV ∧ (AV ≤ n → l.length = KV))
    (hscanI : ∀ n, 1 ≤ n → n ≤ maxI →
      ∃ l, imageAttemptStep fetchI iids n = .collected l ∧
        l.length ≤ KI ∧ (AI ≤ n → l.length = KI)) :
    ((KV = vids.length →
       (fetch_video_urls_by_media_id fetchV vids maxV).earlyExit = true ∧
       (fetch_video_urls_by_media_id fetchV vids maxV).attemptsUsed ≤ AV ∧
       (fetch_video_urls_by_media_id fetchV vids maxV).result.length = KV) ∧
     (KV < vids.length →
       (fetch_video_urls_by_media_id fetchV vids maxV).earlyExit = false ∧
       (fetch_video_urls_by_media_id fetchV vids maxV).attemptsUsed = maxV ∧
       (fetch_video_urls_by_media_id fetchV vids maxV).result.length = KV) ∧
     (fetch_video_urls_by_media_id fetchV vids maxV).attemptsUsed ≤ maxV) ∧
    ((KI = iids.length →
       (fetch_image_urls_by_media_id fetchI iids maxI).earlyExit = true ∧
       (fetch_image_urls_by_media_id fetchI iids maxI).attemptsUsed ≤ AI ∧
       (fetch_image_urls_by_media_id fetchI iids maxI).result.length = KI) ∧
     (KI < iids.length →
       (fetch_image_urls_by_media_id fetchI iids maxI).earlyExit = false ∧
       (fetch_image_urls_by_media_id fetchI iids maxI).attemptsUsed = maxI ∧
       (fetch_image_urls_by_media_id fetchI iids maxI).result.length = KI) ∧
     (fetch_image_urls_by_media_id fetchI iids maxI).attemptsUsed ≤ maxI) := by
  rw [fetch_video_urls_loop fetchV vids maxV hv, fetch_image_urls_loop fetchI iids maxI hi]
  exact ⟨pollLoopGo_phase_top (videoAttemptStep fetchV vids) vids KV AV maxV
           hAV1 hAVm hscanV,
         pollLoopGo_phase_top (imageAttemptStep fetchI iids) iids KI AI maxI
           hAI1 hAIm hscanI⟩

/-- Witness for C1 (amended): one requested id, providers that resolve it
on every attempt (K and N both 1, A 1, two allowed attempts): both loops
exit early at attempt 1 with the single resolved item. -/
theorem media_poll_count_and_termination_witness :
    ((["a"] : List String) ≠ [] ∧ (1 : ℕ) ≤ 1 ∧ (1 : ℕ) ≤ 2 ∧
     (∀ n : ℕ, 1 ≤ n → n ≤ 2 →
       ∃ l, videoAttemptStep (fun _ => resolvedAOnlyFeed) ["a"] n = .collected l ∧
         l.length ≤ 1 ∧ (1 ≤ n → l.length = 1)) ∧
     (∀ n : ℕ, 1 ≤ n → n ≤ 2 →
       ∃ l, imageAttemptStep (fun _ => resolvedAOnlyImageFeed) ["a"] n = .collected l ∧
         l.length ≤ 1 ∧ (1 ≤ n → l.length = 1))) ∧
    ((1 = (["a"] : List String).length →
       (fetch_video_urls_by_media_id (fun _ => resolvedAOnlyFeed) ["a"] 2).earlyExit = true ∧
       (fetch_video_urls_by_media_id (fun _ => resolvedAOnlyFeed) ["a"] 2).attemptsUsed ≤ 1 ∧
       (fetch_video_urls_by_media_id (fun _ => resolvedAOnlyFeed) ["a"] 2).result.length = 1) ∧
     (1 < (["a"] : List String).length →
       (fetch_video_urls_by_media_id (fun _ => resolvedAOnlyFeed) ["a"] 2).earlyExit = false ∧
       (fetch_video_urls_by_media_id (fun _ => resolvedAOnlyFeed) ["a"] 2).attemptsUsed = 2 ∧
       (fetch_video_urls_by_media_id (fun _ => resolvedAOnlyFeed) ["a"] 2).result.length = 1) ∧
     (fetch_video_urls_by_media_id (fun _ => resolvedAOnlyFeed) ["a"] 2).attemptsUsed ≤ 2) ∧
    ((1 = (["a"] : List String).length →
       (fetch_image_urls_by_media_id (fun _ => resolvedAOnlyImageFeed) ["a"] 2).earlyExit = true ∧
       (fetch_image_urls_by_media_id (fun _ => resolvedAOnlyImageFeed) ["a"] 2).attemptsUsed ≤ 1 ∧
       (fetch_image_urls_by_media_id (fun _ => resolvedAOnlyImageFeed) ["a"] 2).result.length = 1) ∧
     (1 < (["a"] : List String).length →
       (fetch_image_urls_by_media_id (fun _ => resolvedAOnlyImageFeed) ["a"] 2).earlyExit = false ∧
       (fetch_image_urls_by_media_id (fun _ => resolvedAOnlyImageFeed) ["a"] 2).attemptsUsed = 2 ∧
       (fetch_image_urls_by_media_id (fun _ => resolvedAOnlyImageFeed) ["a"] 2).result.length = 1) ∧
     (fetch_image_urls_by_media_id (fun _ => resolvedAOnlyImageFeed) ["a"] 2).attemptsUsed ≤ 2) := by
  have hsv : ∀ n : ℕ, 1 ≤ n → n ≤ 2 →
      ∃ l, videoAttemptStep (fun _ => resolvedAOnlyFeed) ["a"] n = .collected l ∧
        l.length ≤ 1 ∧ (1 ≤ n → l.length = 1) :=
    fun n _ _ =>
      ⟨[mkItem "a"
          (JVal.jobj [("id", JVal.jstr "a"), ("url", JVal.jstr "http://a.mp4")])
          (JVal.jstr "http://a.mp4") JVal.jnull],
       rfl, Nat.le_refl 1, fun _ => rfl⟩
  have hsi : ∀ n : ℕ, 1 ≤ n → n ≤ 2 →
      ∃ l, imageAttemptStep (fun _ => resolvedAOnlyImageFeed) ["a"] n = .collected l ∧
        l.length ≤ 1 ∧ (1 ≤ n → l.length = 1) :=
    fun n _ _ =>
      ⟨[mkItem "a"
          (JVal.jobj [("id", JVal.jstr "a"), ("url", JVal.jstr "http://a.png")])
          (JVal.jstr "http://a.png") JVal.jnull],
       rfl, Nat.le_refl 1, fun _ => rfl⟩
  refine ⟨⟨by decide, by decide, by decide, hsv, hsi⟩, ?_⟩
  exact media_poll_count_and_termination (fun _ => resolvedAOnlyFeed)
    (fun _ => resolvedAOnlyImageFeed) ["a"] ["a"] 1 1 1 1 2 2
    (by decide) (by decide) (by decide) (by decide) (by decide) (by decide)
    hsv hsi

/-- Splitting `++` into data concatenation. -/
theorem pyStr_data_append (a b : String) : (a ++ b).data = a.data ++ b.data := by
  cases a
  cases b
  rfl

/-- Associativity of string concatenation. -/
theorem pyStr_append_assoc (a b c : String) : a ++ b ++ c = a ++ (b ++ c) := by
  cases a
  cases b
  cases c
  exact congrArg String.mk (List.append_assoc _ _ _)

/-- A list is a prefix of itself followed by anything. -/
theorem isPrefixOfChars_append (n t : List Char) :
    isPrefixOfChars n (n ++ t) = true := by
  induction n with
  | nil => rfl
  | cons a as ih => simp [isPrefixOfChars, ih]

/-- `containsSub` finds an inner factor. -/
theorem containsSub_infix (pre n suf : List Char) :
    containsSub (pre ++ (n ++ suf)) n = true := by
  induction pre with
  | nil =>
    simp only [List.nil_append]
    cases n with
    | nil =>
      cases suf with
      | nil => rfl
      | cons b bs => simp [containsSub, isPrefixOfChars]
    | cons a as =>
      have h := isPrefixOfChars_append (a :: as) suf
      simp only [List.cons_append] at h
      simp [containsSub, h]
  | cons p ps ih => simp [containsSub, ih]

/-- A string contains each of its suffixes. -/
theorem pyInStr_suffix (p n : String) : pyInStr n (p ++ n) = true := by
  unfold pyInStr
  rw [pyStr_data_append]
  have h := containsSub_infix p.data n.data []
  simpa using h

/-- C5 counterexample: a `multipart/mixed` response whose body is not JSON
raises an uncaught `json.JSONDecodeError` out of `_parse_response`, both
when the content type carries no boundary (the early `response.json()`
fallback) and when it does but no part yields data (the final
`response.json()` fallback) — not the claimed decoded error value. -/
theorem multipart_undecodable_body_raises :
    parse_response jsonLoadsFail
      { status_code := 200, content_type := "multipart/mixed", text := "oops" } =
      .error () ∧
    parse_response jsonLoadsFail
      { status_code := 200, content_type := "multipart/mixed; boundary=b",
        text := "oops" } = .error () :=
  ⟨rfl, rfl⟩

/-- C5 (amended): the response decoder returns decoded error values rather
than raising, except on the multipart path. A non-success status (at least
400) or an empty body yields an error object carrying the status code and
either the empty-body marker or the 200-character body excerpt inside its
message; an undecodable body on the plain-JSON transport yields an error
object with the 500-character raw excerpt; the SSE transport always
returns a value (its whole parse sits under a catch-all), and an
undecodable SSE `data:` line is skipped with the parse state unchanged.
(The original "any transport" wording fails for `multipart/mixed`, whose
`response.json()` fallbacks raise on an undecodable body.) -/
theorem response_decoder_error_values (pj : String → Except String JVal)
    (r : DecoderResponse) (e data_str : String) (st : SSEState) :
    ((r.text = "" ∨ 400 ≤ r.status_code) →
      ∃ msg, parse_response pj r =
          .ok (.jobj [("error", .jstr msg), ("status_code", .jnum r.status_code)]) ∧
        (r.text = "" → pyInStr "Empty response body" msg = true) ∧
        (r.text ≠ "" → pyInStr (pyTake r.text 200) msg = true)) ∧
    (¬(r.text = "" ∨ 400 ≤ r.status_code) →
      pyInStr "multipart/mixed" r.content_type = false →
      pyInStr "text/event-stream" r.content_type = false →
      pj r.text = .error e →
      parse_response pj r =
        .ok (.jobj [("error", .jstr ("JSON parse failed: " ++ e)),
          ("raw_response", .jstr (pyTake r.text 500))])) ∧
    (¬(r.text = "" ∨ 400 ≤ r.status_code) →
      pyInStr "multipart/mixed" r.content_type = false →
      pyInStr "text/event-stream" r.content_type = true →
      parse_response pj r = .ok (parse_sse_response pj r)) ∧
    (pj data_str = .error e → sseDataLine pj data_str st = .ok st) := by
  refine ⟨?_, ?_, ?_, ?_⟩
  · intro h
    by_cases ht : r.text = ""
    · refine ⟨"API returned status " ++ Nat.repr r.status_code ++
          ": Empty response body", ?_, fun _ => ?_, fun hne => absurd ht hne⟩
      · unfold parse_response
        rw [if_pos h]
        dsimp only
        rw [if_pos ht]
      · have h1 : (": Empty response body" : String) =
            ": " ++ "Empty response body" := rfl
        rw [h1, ← pyStr_append_assoc]
        exact pyInStr_suffix ("API returned status " ++ Nat.repr r.status_code ++ ": ")
          "Empty response body"
    · refine ⟨"API returned status " ++ Nat.repr r.status_code ++ ": " ++
          pyTake r.text 200, ?_, fun h0 => absurd h0 ht, fun _ => ?_⟩
      · unfold parse_response
        rw [if_pos h]
        dsimp only
        rw [if_neg ht]
      · exact pyInStr_suffix
          ("API returned status " ++ Nat.repr r.status_code ++ ": ")
          (pyTake r.text 200)
  · intro h hm hs hpj
    unfold parse_response
    rw [if_neg h, hm, hs, hpj]
    rfl
  · intro h hm hs
    unfold parse_response
    rw [if_neg h, hm, hs]
    rfl
  · intro hpj
    unfold sseDataLine
    rw [hpj]

/-- Witness for C5 at concrete responses: a 500 with body `boom`, a 200
plain-JSON response with undecodable body `oops`, a 200 SSE response with
one undecodable data line, and the skip of that line. -/
theorem response_decoder_error_values_witness :
    ((("boom" : String) = "" ∨ 400 ≤ 500) ∧
     (∃ msg, parse_response jsonLoadsFail
          { status_code := 500, content_type := "application/json", text := "boom" } =
          .ok (.jobj [("error", .jstr msg), ("status_code", .jnum (500 : ℕ))]) ∧
        (("boom" : String) = "" → pyInStr "Empty response body" msg = true) ∧
        (("boom" : String) ≠ "" → pyInStr (pyTake "boom" 200) msg = true))) ∧
    (jsonLoadsFail "oops" = .error "Expecting value" ∧
     parse_response jsonLoadsFail
        { status_code := 200, content_type := "application/json", text := "oops" } =
        .ok (.jobj [("error", .jstr ("JSON parse failed: " ++ "Expecting value")),
          ("raw_response", .jstr (pyTake "oops" 500))])) ∧
    (parse_response jsonLoadsFail
        { status_code := 200, content_type := "text/event-stream", text := "data: oops" } =
      .ok (parse_sse_response jsonLoadsFail
        { status_code := 200, content_type := "text/event-stream", text := "data: oops" })) ∧
    (sseDataLine jsonLoadsFail "oops" initSSEState = .ok initSSEState) := by
  refine ⟨⟨Or.inr (by norm_num),
    (response_decoder_error_values jsonLoadsFail
      { status_code := 500, content_type := "application/json", text := "boom" }
      "Expecting value" "oops" initSSEState).1 (Or.inr (by norm_num))⟩,
    ⟨rfl, (response_decoder_error_values jsonLoadsFail
      { status_code := 200, content_type := "application/json", text := "oops" }
      "Expecting value" "oops" initSSEState).2.1 (by decide) (by decide) (by decide) rfl⟩,
    (response_decoder_error_values jsonLoadsFail
      { status_code := 200, content_type := "text/event-stream", text := "data: oops" }
      "Expecting value" "oops" initSSEState).2.2.1 (by decide) (by decide) (by decide),
    (response_decoder_error_values jsonLoadsFail
      { status_code := 200, content_type := "text/event-stream", text := "data: oops" }
      "Expecting value" "oops" initSSEState).2.2.2 rfl⟩

end MetaaiApi
